import Mathlib

/-!
Verification development for the quota resolution and normalization subsystem
of the batch-auth-manager console (source file `src/api/quota.ts`).

The TypeScript source is shallowly embedded: JavaScript values are modelled by
the inductive type `JVal`, JavaScript numbers by `ℚ` (with NaN represented as
`Option.none` at the points where the source can produce it), property access
by `JVal.get?` (absent field = `none` = `undefined`), and the JS builtins used
by the source (`parseFloat`, `JSON.parse`, `JSON.stringify`, `atob`,
`Math.round`, `Math.min`, `Math.max`, `String(...)`) by executable Lean
functions below.  Network effects are made explicit: fetch functions take an
oracle describing the remote response for each request.

Modelling notes, applying throughout:
* property access on `null`/`undefined` raises a TypeError in JavaScript; the
  embedding is total and returns `undefined` there.  Theorems about inputs
  where the source would raise are guarded by well-typedness hypotheses.
* `parseFloat` is modelled on sign/digits/fraction/exponent prefixes; the
  special strings accepted by the real builtin (`Infinity`, hex forms) are
  treated as non-numeric.
* `String(x)` for a non-integral number and for nested arrays is approximated;
  all claims evaluate it only on strings and integral numbers.
-/

/-- A JavaScript/JSON value.  `undefined` is not a `JVal`: absence is
represented by `Option.none` wherever the source distinguishes it. -/
inductive JVal where
  | null : JVal
  | bool (b : Bool) : JVal
  | num (q : ℚ) : JVal
  | str (s : String) : JVal
  | arr (elems : List JVal) : JVal
  | obj (fields : List (String × JVal)) : JVal

/-- Zero test on a rational, via the numerator of the normalized form (a
`Rat` is zero exactly when its numerator is). -/
def qIsZero (q : ℚ) : Bool := q.num == 0

/-- Structural equality test on rationals: normalized forms are unique, so
componentwise equality coincides with equality. -/
def qBeq (a b : ℚ) : Bool := a.num == b.num && a.den == b.den

/-- JavaScript truthiness of a value (NaN cannot occur as a `JVal.num`). -/
def jsTruthy : JVal → Bool
  | .null => false
  | .bool b => b
  | .num q => !qIsZero q
  | .str s => s != ""
  | .arr _ => true
  | .obj _ => true

/-- Truthiness of a possibly-undefined value. -/
def truthyOpt : Option JVal → Bool
  | some v => jsTruthy v
  | none => false

/-- `typeof v === 'object'` (true for null, arrays and plain objects). -/
def typeofObject : JVal → Bool
  | .null => true
  | .arr _ => true
  | .obj _ => true
  | _ => false

/-- Property read `v[k]`; `none` models `undefined`. -/
def JVal.get? : JVal → String → Option JVal
  | .obj fields, k => (fields.find? (fun kv => kv.1 == k)).map (·.2)
  | _, _ => none

/-- JS `a || b` on possibly-undefined operands: the first truthy operand,
else the value of `b` (which may itself be undefined or falsy). -/
def jsOrOpt (a b : Option JVal) : Option JVal :=
  match a with
  | some v => if jsTruthy v then some v else b
  | none => b

/-- JS `a ?? b` on possibly-undefined operands: `b` exactly when `a` is
`null` or `undefined`. -/
def jsCoalesce (a b : Option JVal) : Option JVal :=
  match a with
  | some .null => b
  | none => b
  | some v => some v

/-- JS `Math.round` (round half toward positive infinity). -/
def jsRound (q : ℚ) : ℚ := ((⌊q + 1/2⌋ : ℤ) : ℚ)

/-- `Math.max(0, Math.min(1, q))`. -/
def clamp01 (q : ℚ) : ℚ := max 0 (min 1 q)

/-- `Math.max(0, Math.min(100, q))`. -/
def clamp0100 (q : ℚ) : ℚ := max 0 (min 100 q)

def isJsSpace (c : Char) : Bool :=
  c = ' ' || c = '\t' || c = '\n' || c = '\r'

def isDigitCh (c : Char) : Bool := '0' ≤ c && c ≤ '9'

def digitsToNat (cs : List Char) : ℕ :=
  cs.foldl (fun acc c => acc * 10 + (c.toNat - 48)) 0

/-- Numeric value of an integer part plus a fraction part, e.g.
digits "12" and "5" give 12.5. -/
def mantissaOf (intDigits fracDigits : List Char) : ℚ :=
  (digitsToNat intDigits : ℚ) + (digitsToNat fracDigits : ℚ) / (10 : ℚ) ^ fracDigits.length

/-- Core numeric scan shared by the `parseFloat` and `Number(...)` models:
parses `[+-]? digits [. digits] [eE [+-]? digits]` at the head of the list and
returns the value together with the unconsumed suffix; `none` when no digit of
the mantissa could be read. -/
def scanNumber (cs : List Char) : Option (ℚ × List Char) :=
  let (sign, cs1) : ℚ × List Char :=
    match cs with
    | '-' :: rest => (-1, rest)
    | '+' :: rest => (1, rest)
    | _ => (1, cs)
  let intDigits := cs1.takeWhile isDigitCh
  let cs2 := cs1.drop intDigits.length
  let (fracDigits, cs3) : List Char × List Char :=
    match cs2 with
    | '.' :: rest => (rest.takeWhile isDigitCh, rest.drop (rest.takeWhile isDigitCh).length)
    | _ => ([], cs2)
  if intDigits.isEmpty && fracDigits.isEmpty then none
  else
    let base := sign * mantissaOf intDigits fracDigits
    match cs3 with
    | e :: rest =>
      if e = 'e' || e = 'E' then
        let (esign, rest1) : ℤ × List Char :=
          match rest with
          | '-' :: r => (-1, r)
          | '+' :: r => (1, r)
          | _ => (1, rest)
        let expDigits := rest1.takeWhile isDigitCh
        if expDigits.isEmpty then some (base, cs3)
        else some (base * (10 : ℚ) ^ (esign * (digitsToNat expDigits : ℤ)),
                   rest1.drop expDigits.length)
      else some (base, cs3)
    | [] => some (base, [])

/-- JS `parseFloat` on a string: skip leading whitespace, then parse a numeric
prefix, ignoring any trailing characters; `none` models NaN. -/
def jsParseFloat (s : String) : Option ℚ :=
  (scanNumber (s.data.dropWhile isJsSpace)).map (·.1)

/-- JS `parseFloat(x)` on a possibly-undefined value (`x` is first coerced to
a string; only strings and numbers yield a numeric result here). -/
def parseFloatVal : Option JVal → Option ℚ
  | some (.num q) => some q
  | some (.str s) => jsParseFloat s
  | _ => none

/-- JS `Number(x)` coercion, used by the relational operators; `none` is NaN.
Arrays and objects are approximated as NaN. -/
def jsToNumber : JVal → Option ℚ
  | .null => some 0
  | .bool b => some (if b then 1 else 0)
  | .num q => some q
  | .str s =>
    let t := s.trim
    if t = "" then some 0
    else match scanNumber t.data with
      | some (q, []) => some q
      | _ => none
  | .arr _ => none
  | .obj _ => none

/-- JS `x <= 0` with numeric coercion (false when `x` coerces to NaN); a
rational is nonpositive exactly when its numerator is. -/
def jsLeZero (v : JVal) : Bool :=
  match jsToNumber v with
  | some q => q.num ≤ 0
  | none => false

/-- Decimal rendering of a number as JS would print an integer; non-integral
rationals (which no claim exercises) are rendered as a fraction. -/
def qToString (q : ℚ) : String :=
  if q.den = 1 then toString q.num else toString q.num ++ "/" ++ toString q.den

mutual

/-- JS `String(x)` coercion.  Arrays join their elements with commas. -/
def jsToString : JVal → String
  | .null => "null"
  | .bool b => if b then "true" else "false"
  | .num q => qToString q
  | .str s => s
  | .arr es => String.intercalate "," (jsToStringList es)
  | .obj _ => "[object Object]"

def jsToStringList : List JVal → List String
  | [] => []
  | v :: vs => jsToString v :: jsToStringList vs

end

/-- Characters that JSON treats as insignificant whitespace. -/
def isJsonWs (c : Char) : Bool :=
  c = ' ' || c = '\t' || c = '\n' || c = '\r'

def skipWsJ (cs : List Char) : List Char := cs.dropWhile isJsonWs

/-- The left brace character, written via its code point. -/
def lbrace : Char := Char.ofNat 123

/-- The right brace character, written via its code point. -/
def rbrace : Char := Char.ofNat 125

def hexVal (c : Char) : Option ℕ :=
  if '0' ≤ c && c ≤ '9' then some (c.toNat - 48)
  else if 'a' ≤ c && c ≤ 'f' then some (c.toNat - 87)
  else if 'A' ≤ c && c ≤ 'F' then some (c.toNat - 55)
  else none

/-- Scan the body of a JSON string literal (after the opening quote),
handling the escape sequences of the JSON grammar. -/
def jpStringAux : List Char → List Char → Option (String × List Char)
  | acc, '"' :: rest => some (String.mk acc.reverse, rest)
  | acc, '\\' :: e :: rest =>
    match e with
    | '"' => jpStringAux ('"' :: acc) rest
    | '\\' => jpStringAux ('\\' :: acc) rest
    | '/' => jpStringAux ('/' :: acc) rest
    | 'b' => jpStringAux ('\x08' :: acc) rest
    | 'f' => jpStringAux ('\x0c' :: acc) rest
    | 'n' => jpStringAux ('\n' :: acc) rest
    | 'r' => jpStringAux ('\r' :: acc) rest
    | 't' => jpStringAux ('\t' :: acc) rest
    | 'u' =>
      match rest with
      | h1 :: h2 :: h3 :: h4 :: rest2 =>
        match hexVal h1, hexVal h2, hexVal h3, hexVal h4 with
        | some a, some b, some c, some d =>
          jpStringAux (Char.ofNat (((a * 16 + b) * 16 + c) * 16 + d) :: acc) rest2
        | _, _, _, _ => none
      | _ => none
    | _ => none
  | acc, c :: rest => jpStringAux (c :: acc) rest
  | _, [] => none

/-- Parse a JSON number (strict JSON grammar: optional minus, integer part
without leading zeros, optional fraction, optional exponent). -/
def jpNumber (cs : List Char) : Option (ℚ × List Char) :=
  let (sign, cs1) : ℚ × List Char :=
    match cs with
    | '-' :: rest => (-1, rest)
    | _ => (1, cs)
  let intDigits := cs1.takeWhile isDigitCh
  let intOk :=
    match intDigits with
    | [] => false
    | [_] => true
    | c :: _ => c ≠ '0'
  if !intOk then none
  else
    let cs2 := cs1.drop intDigits.length
    let (fracDigits, cs3, fracOk) : List Char × List Char × Bool :=
      match cs2 with
      | '.' :: rest =>
        let ds := rest.takeWhile isDigitCh
        (ds, rest.drop ds.length, !ds.isEmpty)
      | _ => ([], cs2, true)
    if !fracOk then none
    else
      let base := sign * mantissaOf intDigits fracDigits
      match cs3 with
      | e :: rest =>
        if e = 'e' || e = 'E' then
          let (esign, rest1) : ℤ × List Char :=
            match rest with
            | '-' :: r => (-1, r)
            | '+' :: r => (1, r)
            | _ => (1, rest)
          let expDigits := rest1.takeWhile isDigitCh
          if expDigits.isEmpty then none
          else some (base * (10 : ℚ) ^ (esign * (digitsToNat expDigits : ℤ)),
                     rest1.drop expDigits.length)
        else some (base, cs3)
      | [] => some (base, [])

/-- Re-binding a key in an object literal keeps the original position, as
JavaScript property assignment does. -/
def upsertField (fields : List (String × JVal)) (k : String) (v : JVal) :
    List (String × JVal) :=
  if fields.any (fun kv => kv.1 == k) then
    fields.map (fun kv => if kv.1 == k then (k, v) else kv)
  else fields ++ [(k, v)]

mutual

/-- Fuel-indexed recursive-descent parser for a JSON value. -/
def jpVal : ℕ → List Char → Option (JVal × List Char)
  | 0, _ => none
  | fuel + 1, cs =>
    match skipWsJ cs with
    | [] => none
    | c :: rest =>
      if c = '"' then (jpStringAux [] rest).map (fun p => (JVal.str p.1, p.2))
      else if c = lbrace then
        match skipWsJ rest with
        | d :: rest2 => if d = rbrace then some (.obj [], rest2) else jpMembers fuel rest []
        | [] => none
      else if c = '[' then
        match skipWsJ rest with
        | d :: rest2 => if d = ']' then some (.arr [], rest2) else jpElems fuel rest []
        | [] => none
      else if c = 't' then
        match rest with
        | 'r' :: 'u' :: 'e' :: rest2 => some (.bool true, rest2)
        | _ => none
      else if c = 'f' then
        match rest with
        | 'a' :: 'l' :: 's' :: 'e' :: rest2 => some (.bool false, rest2)
        | _ => none
      else if c = 'n' then
        match rest with
        | 'u' :: 'l' :: 'l' :: rest2 => some (.null, rest2)
        | _ => none
      else (jpNumber (c :: rest)).map (fun p => (JVal.num p.1, p.2))

/-- Parse the members of a JSON object (positioned before a key). -/
def jpMembers : ℕ → List Char → List (String × JVal) →
    Option (JVal × List Char)
  | 0, _, _ => none
  | fuel + 1, cs, acc =>
    match skipWsJ cs with
    | '"' :: rest =>
      match jpStringAux [] rest with
      | none => none
      | some (key, rest2) =>
        match skipWsJ rest2 with
        | ':' :: rest3 =>
          match jpVal fuel rest3 with
          | none => none
          | some (v, rest4) =>
            let acc2 := upsertField acc key v
            match skipWsJ rest4 with
            | ',' :: rest5 => jpMembers fuel rest5 acc2
            | d :: rest5 => if d = rbrace then some (.obj acc2, rest5) else none
            | [] => none
        | _ => none
    | _ => none

/-- Parse the elements of a JSON array (positioned before a value). -/
def jpElems : ℕ → List Char → List JVal → Option (JVal × List Char)
  | 0, _, _ => none
  | fuel + 1, cs, acc =>
    match jpVal fuel cs with
    | none => none
    | some (v, rest) =>
      match skipWsJ rest with
      | ',' :: rest2 => jpElems fuel rest2 (acc ++ [v])
      | ']' :: rest2 => some (.arr (acc ++ [v]), rest2)
      | _ => none

end

/-- JS `JSON.parse`: `none` models a thrown SyntaxError (including trailing
garbage after the value). -/
def jsonParse (s : String) : Option JVal :=
  match jpVal (2 * s.length + 16) s.data with
  | some (v, rest) => if (skipWsJ rest).isEmpty then some v else none
  | none => none

def escapeJsonChar (c : Char) : String :=
  if c = '"' then "\\\""
  else if c = '\\' then "\\\\"
  else if c = '\n' then "\\n"
  else if c = '\r' then "\\r"
  else if c = '\t' then "\\t"
  else String.singleton c

def escapeJsonString (s : String) : String :=
  "\"" ++ String.join (s.data.map escapeJsonChar) ++ "\""

mutual

/-- JS `JSON.stringify` on a value (no `undefined` members arise here). -/
def jsonStringify : JVal → String
  | .null => "null"
  | .bool b => if b then "true" else "false"
  | .num q => qToString q
  | .str s => escapeJsonString s
  | .arr es => "[" ++ String.intercalate "," (jsonStringifyList es) ++ "]"
  | .obj fields =>
    String.singleton lbrace ++
      String.intercalate "," (jsonStringifyFields fields) ++ String.singleton rbrace

def jsonStringifyList : List JVal → List String
  | [] => []
  | v :: vs => jsonStringify v :: jsonStringifyList vs

def jsonStringifyFields : List (String × JVal) → List String
  | [] => []
  | kv :: kvs => (escapeJsonString kv.1 ++ ":" ++ jsonStringify kv.2) :: jsonStringifyFields kvs

end

/-- Value of one base64 alphabet character. -/
def b64Val (c : Char) : Option ℕ :=
  if 'A' ≤ c && c ≤ 'Z' then some (c.toNat - 65)
  else if 'a' ≤ c && c ≤ 'z' then some (c.toNat - 97 + 26)
  else if '0' ≤ c && c ≤ '9' then some (c.toNat - 48 + 52)
  else if c = '+' then some 62
  else if c = '/' then some 63
  else none

/-- Decode a run of base64 characters (padding already removed) to bytes;
per the forgiving-base64 algorithm, leftover bits of a final partial group
are discarded. -/
def b64DecodeChunks : List Char → Option (List ℕ)
  | [] => some []
  | [a, b] =>
    match b64Val a, b64Val b with
    | some va, some vb => some [(va * 64 + vb) / 16]
    | _, _ => none
  | [a, b, c] =>
    match b64Val a, b64Val b, b64Val c with
    | some va, some vb, some vc =>
      let v := (va * 64 + vb) * 64 + vc
      some [v / 1024, (v / 4) % 256]
    | _, _, _ => none
  | a :: b :: c :: d :: rest =>
    match b64Val a, b64Val b, b64Val c, b64Val d with
    | some va, some vb, some vc, some vd =>
      let v := ((va * 64 + vb) * 64 + vc) * 64 + vd
      (b64DecodeChunks rest).map
        (fun bs => (v / 65536) :: (v / 256) % 256 :: v % 256 :: bs)
    | _, _, _, _ => none
  | _ => none

/-- Remove up to two `=` padding characters from the end of a base64 input
whose length is a multiple of four, as the forgiving-base64 algorithm does. -/
def b64StripPadding (cs : List Char) : List Char :=
  if cs.length % 4 = 0 then
    match cs.reverse with
    | '=' :: '=' :: rest => rest.reverse
    | '=' :: rest => rest.reverse
    | _ => cs
  else cs

/-- JS `atob`: forgiving base64 decode to a binary string; `none` models a
thrown InvalidCharacterError. -/
def atob (s : String) : Option String :=
  let cs := b64StripPadding (s.data.filter (fun c => !isJsSpace c))
  if cs.length % 4 = 1 then none
  else
    (b64DecodeChunks cs).map (fun bs => String.mk (bs.map Char.ofNat))

/-! ## Wire-call adapter (`src/api/quota.ts`, lines 12–116)

`ApiCallResponse` models the normalized envelope built by
`apiCallApi.request`: `statusCode` is the resolved numeric code (0 when the
remote envelope carried none), `bodyText` is `response.body || ''` (the raw
body, which JavaScript keeps as-is even when it is not a string), and `body`
is `parseBody(response.body)`. -/

structure ApiCallResponse where
  statusCode : ℚ
  bodyText : JVal
  body : JVal

/-- `parseBody` (quota.ts lines 41–53).  The argument is the raw envelope
body; `none` is `undefined`. -/
def parseBody : Option JVal → JVal
  | none => .null
  | some .null => .null
  | some (.str s) =>
    if s.trim = "" then .null
    else match jsonParse s.trim with
      | some v => v
      | none => .str s
  | some v => v

/-- `normalizeText` (quota.ts lines 55–59): trimmed non-empty strings only. -/
def normalizeText : Option JVal → Option String
  | some (.str s) => if s.trim = "" then none else some s.trim
  | _ => none

/-- `stringifyIfNeeded` (quota.ts lines 61–71). -/
def stringifyIfNeeded : Option JVal → Option String
  | none => none
  | some .null => none
  | some (.str s) => normalizeText (some (.str s))
  | some (.num q) => some (qToString q)
  | some (.bool b) => some (if b then "true" else "false")
  | some v => normalizeText (some (.str (jsonStringify v)))

/-- `resolveStatusCode` (quota.ts lines 73–81).  The envelope status is a
finite `ℚ` here, so `Number.isFinite` reduces to the positivity test. -/
def resolveStatusCode (result : ApiCallResponse) : Option ℚ :=
  if 0 < result.statusCode then some result.statusCode
  else
    let bodyStatus := result.body.get? "status"
    let parsedStatus : Option ℚ :=
      match bodyStatus with
      | some (.num q) => some q
      | other => parseFloatVal other
    match parsedStatus with
    | some q => if 0 < q then some q else none
    | none => none

/-- `getOriginalErrorText` (quota.ts lines 83–87). -/
def getOriginalErrorText (result : ApiCallResponse) : Option String :=
  match stringifyIfNeeded (some result.bodyText) with
  | some s => some s
  | none => stringifyIfNeeded (some result.body)

/-- A thrown `Error`, with the optional `statusCode` property that
`createNon2xxError` attaches. -/
structure JsError where
  message : String
  statusCode : Option ℚ := none
deriving DecidableEq

/-- `formatNon2xxError` (quota.ts lines 89–107). -/
def formatNon2xxError (result : ApiCallResponse) : String :=
  let statusCode := resolveStatusCode result
  let errorObj : Option JVal :=
    if jsTruthy result.body && typeofObject result.body then
      match result.body.get? "error" with
      | some e => if jsTruthy e && typeofObject e then some e else none
      | none => none
    else none
  let fallback : String :=
    match getOriginalErrorText result with
    | some s => s
    | none =>
      match statusCode with
      | some c => "HTTP " ++ qToString c
      | none => "HTTP error"
  match errorObj with
  | some eo =>
    let errorCode := normalizeText (eo.get? "code")
    let message := normalizeText (eo.get? "message")
    let pre : String :=
      match statusCode with
      | some c => "HTTP " ++ qToString c
      | none => "HTTP error"
    match errorCode, message with
    | some ec, some m => pre ++ " " ++ ec ++ ": " ++ m
    | some ec, none => pre ++ " " ++ ec
    | none, some m => pre ++ ": " ++ m
    | none, none => fallback
  | none => fallback

/-- `createNon2xxError` (quota.ts lines 109–116); the `statusCode` property is
attached exactly when the resolved code is non-null (it is then positive,
hence truthy). -/
def createNon2xxError (result : ApiCallResponse) : JsError :=
  { message := formatNon2xxError result, statusCode := resolveStatusCode result }

/-! ## Credential introspection (quota.ts lines 118–279)

`downloadAuthFileJson` performs network and file IO; resolvers below take its
result as an explicit argument (`none` models the `null` outcome of a failed
download or parse). -/

/-- Leftmost match of the regular expression `\(([^()]+)\)`: the first
parenthesized group containing at least one character and no parentheses.
Backtracking cannot extend a failed attempt at a given `(`, because the
candidate run excludes both parentheses, so scanning resumes one character
after the failed `(`. -/
def firstParenGroupAux : List Char → Option String
  | [] => none
  | c :: rest =>
    if c = '(' then
      let run := rest.takeWhile (fun d => d ≠ '(' && d ≠ ')')
      if !run.isEmpty && (rest.drop run.length).head? = some ')' then
        some (String.mk run)
      else firstParenGroupAux rest
    else firstParenGroupAux rest

def firstParenGroup (s : String) : Option String := firstParenGroupAux s.data

/-- `resolveGeminiCliProjectId` (quota.ts lines 163–172), with the downloaded
and parsed auth-file JSON passed explicitly (`none` = download/parse failed,
which `downloadAuthFileJson` reports as `null`). -/
def resolveGeminiCliProjectId (parsed : Option JVal) : Option String :=
  match parsed with
  | none => none
  | some p =>
    if !jsTruthy p || !typeofObject p then none
    else match p.get? "account" with
      | some (.str account) => firstParenGroup account
      | _ => none

/-- `decodeJwtPayload` (quota.ts lines 177–191): split on `.`, require at
least two segments, convert the second from URL-safe to standard base64, pad
to a multiple of four, `atob`, then `JSON.parse`; any failure yields null. -/
def decodeJwtPayload (token : String) : Option JVal :=
  let parts := token.splitOn "."
  if parts.length < 2 then none
  else
    let payload0 := ((parts.get? 1).getD "").map
      (fun c => if c = '-' then '+' else if c = '_' then '/' else c)
    let padding := payload0.length % 4
    let payload :=
      if padding ≠ 0 then payload0 ++ String.mk (List.replicate (4 - padding) '=')
      else payload0
    match atob payload with
    | none => none
    | some decoded => jsonParse decoded

/-- Read `chatgpt_account_id ?? chatgptAccountId` from a decoded claims
object, requiring a trimmed non-empty string (quota.ts lines 201–202,
209–210). -/
def accountIdFromClaims (v : JVal) : Option String :=
  match jsCoalesce (v.get? "chatgpt_account_id") (v.get? "chatgptAccountId") with
  | some (.str s) => if s.trim = "" then none else some s.trim
  | _ => none

/-- `extractAccountIdFromIdToken` (quota.ts lines 196–214).  The argument is
the `id_token` value, possibly undefined. -/
def extractAccountIdFromIdToken (idToken : Option JVal) : Option String :=
  match idToken with
  | none => none
  | some v =>
    if !jsTruthy v then none
    else if typeofObject v then accountIdFromClaims v
    else match v with
      | .str s =>
        match decodeJwtPayload s with
        | none => none
        | some payload =>
          if !jsTruthy payload then none else accountIdFromClaims payload
      | _ => none

/-! ## The normalized quota item

One structure serves all three providers; `label` carries the
provider-specific key (`name` for Antigravity groups, `modelId` for
Gemini-CLI buckets, `model` for Codex limits). -/

structure QItem where
  label : String
  percent : Option ℚ
  remaining : Option ℚ
  used : Option ℚ
  total : ℚ
  resetTime : Option JVal := none
  hideInTable : Bool := false

/-! ## Antigravity quota (quota.ts lines 284–459) -/

structure AgResult where
  groups : List QItem

namespace antigravityQuota

def URLS : List String :=
  [ "https://daily-cloudcode-pa.googleapis.com/v1internal:fetchAvailableModels",
    "https://daily-cloudcode-pa.sandbox.googleapis.com/v1internal:fetchAvailableModels",
    "https://cloudcode-pa.googleapis.com/v1internal:fetchAvailableModels" ]

/-- One entry of the fixed `modelGroups` table (quota.ts lines 339–387). -/
structure GroupDef where
  id : String
  label : String
  identifiers : List String
  hideInTable : Bool := false

def modelGroups : List GroupDef :=
  [ { id := "claude-gpt", label := "Claude/GPT",
      identifiers := [ "claude-sonnet-4-5-thinking", "claude-opus-4-5-thinking",
                       "claude-opus-4-6-thinking", "claude-sonnet-4-5",
                       "gpt-oss-120b-medium" ] },
    { id := "gemini-3-pro", label := "Gemini 3 Pro",
      identifiers := ["gemini-3-pro-high", "gemini-3-pro-low"] },
    { id := "gemini-2-5-pro", label := "Gemini 2.5 Pro",
      identifiers := ["gemini-2.5-pro"] },
    { id := "gemini-2-5-flash", label := "Gemini 2.5 Flash",
      identifiers := ["gemini-2.5-flash", "gemini-2.5-flash-thinking"] },
    { id := "gemini-2-5-cu", label := "Gemini 2.5 CU",
      identifiers := ["rev19-uic3-1p"] },
    { id := "gemini-2-5-flash-lite", label := "Gemini 2.5 Flash Lite",
      identifiers := ["gemini-2.5-flash-lite"], hideInTable := true },
    { id := "gemini-3-flash", label := "Gemini 3 Flash",
      identifiers := ["gemini-3-flash"] },
    { id := "gemini-image", label := "Gemini Image",
      identifiers := ["gemini-3-pro-image"] } ]

/-- `entry?.displayName || ''` followed by the `toLowerCase` call site; a
truthy non-string `displayName` would raise in the source and is modelled as
no match. -/
def displayNameOf (entry : JVal) : String :=
  match jsOrOpt (entry.get? "displayName") (some (.str "")) with
  | some (.str s) => s
  | _ => ""

def fieldsOf : JVal → List (String × JVal)
  | .obj fields => fields
  | _ => []

/-- `findModel` (quota.ts lines 389–402): for each identifier, first an exact
key lookup (kept only when truthy), then a scan of the entries in insertion
order for a case-insensitive `displayName` match, which returns the map key. -/
def findModel (models : JVal) : List String → Option (String × JVal)
  | [] => none
  | id :: rest =>
    let byKey : Option (String × JVal) :=
      match models.get? id with
      | some m => if jsTruthy m then some (id, m) else none
      | none => none
    match byKey with
    | some r => some r
    | none =>
      match (fieldsOf models).find?
          (fun kv => (displayNameOf kv.2).toLower == id.toLower) with
      | some kv => some kv
      | none => findModel models rest

/-- A member of `quotaEntries` (quota.ts lines 431–436). -/
structure AgQuotaEntry where
  id : String
  remainingFraction : ℚ
  resetTime : Option JVal
  displayName : Option JVal

/-- `entry?.quotaInfo || entry?.quota_info || {}` (quota.ts line 415). -/
def quotaInfoOf (entry : JVal) : JVal :=
  (jsOrOpt (jsOrOpt (entry.get? "quotaInfo") (entry.get? "quota_info"))
    (some (.obj []))).getD (.obj [])

/-- The remaining-fraction extraction of quota.ts lines 416–422: the
`||`-chain over three field spellings, then percentage-string or `parseFloat`
interpretation; `none` is NaN. -/
def agRawFraction (quotaInfo : JVal) : Option ℚ :=
  let raw := jsOrOpt (jsOrOpt (quotaInfo.get? "remainingFraction")
    (quotaInfo.get? "remaining_fraction")) (quotaInfo.get? "remaining")
  match raw with
  | some (.str s) =>
    if s.endsWith "%" then (jsParseFloat s).map (· / 100) else jsParseFloat s
  | other => parseFloatVal other

/-- `quotaInfo.resetTime || quotaInfo.reset_time` (quota.ts lines 425, 434). -/
def agResetTime (quotaInfo : JVal) : Option JVal :=
  jsOrOpt (quotaInfo.get? "resetTime") (quotaInfo.get? "reset_time")

/-- The NaN fallback of quota.ts lines 424–427: a present (truthy) reset time
is evidence of exhaustion, else the entry is dropped (`none` = null). -/
def agFraction (quotaInfo : JVal) : Option ℚ :=
  match agRawFraction quotaInfo with
  | some q => some q
  | none => if truthyOpt (agResetTime quotaInfo) then some 0 else none

/-- The body of the `quotaEntries` map (quota.ts lines 413–438). -/
def mkQuotaEntry (idEntry : String × JVal) : Option AgQuotaEntry :=
  let quotaInfo := quotaInfoOf idEntry.2
  match agFraction quotaInfo with
  | none => none
  | some q =>
    some { id := idEntry.1, remainingFraction := clamp01 q,
           resetTime := agResetTime quotaInfo,
           displayName := idEntry.2.get? "displayName" }

/-- `matches` for one group (quota.ts lines 405–409): `findModel` is invoked
on each identifier separately. -/
def groupMatches (models : JVal) (g : GroupDef) : List (String × JVal) :=
  g.identifiers.filterMap (fun identifier => findModel models [identifier])

def groupEntries (models : JVal) (g : GroupDef) : List AgQuotaEntry :=
  (groupMatches models g).filterMap mkQuotaEntry

/-- The body of the group loop (quota.ts lines 404–455): skip a group with no
matches or no surviving quota entries, else emit one normalized item whose
percent is the rounded minimum remaining fraction. -/
def processGroup (models : JVal) (g : GroupDef) : Option QItem :=
  if (groupMatches models g).isEmpty then none
  else
    match groupEntries models g with
    | [] => none
    | e :: es =>
      let remainingFraction := (es.map (·.remainingFraction)).foldl min e.remainingFraction
      let percent := jsRound (remainingFraction * 100)
      let resetTime :=
        ((e :: es).find? (fun q => truthyOpt q.resetTime)).bind (·.resetTime)
      some { label := g.label, percent := some percent, remaining := some percent,
             used := some (100 - percent), total := 100,
             resetTime := resetTime, hideInTable := g.hideInTable }

/-- `antigravityQuota.parse` (quota.ts lines 331–458). -/
def parse (data : JVal) : AgResult :=
  let models := (jsOrOpt (data.get? "models") (some (.obj []))).getD (.obj [])
  match models with
  | .obj _ => { groups := modelGroups.filterMap (processGroup models) }
  | _ => { groups := [] }

end antigravityQuota

/-! ## Gemini CLI quota (quota.ts lines 464–543) -/

structure GcResult where
  buckets : List QItem

namespace geminiCliQuota

def URL : String := "https://cloudcode-pa.googleapis.com/v1internal:retrieveUserQuota"

/-- The POST body of `geminiCliQuota.fetch` (quota.ts line 475):
`projectId ? JSON.stringify({project: projectId}) : JSON.stringify({})`. -/
def requestBody (projectId : Option String) : String :=
  match projectId with
  | some p =>
    if p ≠ "" then jsonStringify (.obj [("project", .str p)])
    else jsonStringify (.obj [])
  | none => jsonStringify (.obj [])

/-- `bucket.resetTime || bucket.reset_time` (quota.ts lines 521, 529). -/
def gcResetTime (bucket : JVal) : Option JVal :=
  jsOrOpt (bucket.get? "resetTime") (bucket.get? "reset_time")

/-- The remaining-fraction chain of quota.ts lines 508–524: percentage string
or `parseFloat`; on NaN, a present (non-nullish) `remainingAmount` decides by
sign (`≤ 0` exhausted, else undetermined), otherwise a truthy reset time is
evidence of exhaustion; `none` means the bucket is dropped. -/
def gcFraction (bucket : JVal) : Option ℚ :=
  let raw := jsOrOpt (bucket.get? "remainingFraction") (bucket.get? "remaining_fraction")
  let parsed : Option ℚ :=
    match raw with
    | some (.str s) =>
      if s.endsWith "%" then (jsParseFloat s).map (· / 100) else jsParseFloat s
    | other => parseFloatVal other
  match parsed with
  | some q => some q
  | none =>
    match jsOrOpt (bucket.get? "remainingAmount") (bucket.get? "remaining_amount") with
    | some .null => if truthyOpt (gcResetTime bucket) then some 0 else none
    | none => if truthyOpt (gcResetTime bucket) then some 0 else none
    | some v => if jsLeZero v then some 0 else none

/-- `modelId || model_id` with the `_vertex`-stripping (quota.ts lines
501–506).  A truthy non-string model id would raise at the `endsWith` call in
the source and is modelled as a drop. -/
def gcModelId (bucket : JVal) : Option String :=
  match jsOrOpt (bucket.get? "modelId") (bucket.get? "model_id") with
  | some (.str s) =>
    if s = "" then none
    else if s.endsWith "_vertex" then some (s.dropRight 7) else some s
  | _ => none

/-- The body of the bucket loop (quota.ts lines 500–539). -/
def bucketItem (bucket : JVal) : Option QItem :=
  match gcModelId bucket with
  | none => none
  | some modelId =>
    match gcFraction bucket with
    | none => none
    | some q =>
      let percent := jsRound (clamp01 q * 100)
      some { label := modelId, percent := some percent, remaining := some percent,
             used := some (100 - percent), total := 100,
             resetTime := gcResetTime bucket }

/-- `geminiCliQuota.parse` (quota.ts lines 492–542). -/
def parse (data : JVal) : GcResult :=
  let rawBuckets := (jsOrOpt (data.get? "buckets") (some (.arr []))).getD (.arr [])
  match rawBuckets with
  | .arr bs => { buckets := bs.filterMap bucketItem }
  | _ => { buckets := [] }

end geminiCliQuota

/-! ## Codex quota (quota.ts lines 548–688) -/

structure CodexResult where
  planType : String
  limits : List QItem
  campaignId : JVal

namespace codexQuota

def URL : String := "https://chatgpt.com/backend-api/wham/usage"

def FIVE_HOUR_SECONDS : ℚ := 18000

def WEEK_SECONDS : ℚ := 604800

/-- The result of `classifyWindows` (quota.ts lines 600–631). -/
structure ClassifiedWindows where
  fiveHour : Option JVal
  weekly : Option JVal
  extra : List JVal

/-- `getWindowSeconds` (quota.ts lines 593–598); `none` covers both a falsy
window and a non-finite parse. -/
def getWindowSeconds (window : JVal) : Option ℚ :=
  if !jsTruthy window then none
  else parseFloatVal
    (jsCoalesce (window.get? "limit_window_seconds") (window.get? "limitWindowSeconds"))

/-- `seconds === c` for the strict-equality tests of the window loop. -/
def secondsIs : Option ℚ → ℚ → Bool
  | some q, c => qBeq q c
  | none, _ => false

/-- One iteration of the window loop (quota.ts lines 612–622): a falsy window
is skipped; seconds equal to the five-hour constant claim the free `fiveHour`
slot, else seconds equal to the week constant claim the free `weekly` slot,
else the window joins the unmatched list. -/
def classifyStep (st : ClassifiedWindows) (w : JVal) : ClassifiedWindows :=
  if !jsTruthy w then st
  else if secondsIs (getWindowSeconds w) FIVE_HOUR_SECONDS && st.fiveHour.isNone then
    { st with fiveHour := some w }
  else if secondsIs (getWindowSeconds w) WEEK_SECONDS && st.weekly.isNone then
    { st with weekly := some w }
  else { st with extra := st.extra ++ [w] }

/-- The positional fallback (quota.ts lines 624–628): only when no window was
classified by duration, shift the unmatched windows into the five-hour and
weekly slots in order. -/
def applyFallback (st : ClassifiedWindows) : ClassifiedWindows :=
  if st.fiveHour.isNone ∧ st.weekly.isNone ∧ !st.extra.isEmpty then
    match st.extra with
    | u :: rest => { fiveHour := some u, weekly := rest.head?, extra := rest.tail }
    | [] => st
  else st

/-- `classifyWindows` restricted to the two raw windows (after the `??`
coalescing of quota.ts lines 603–606). -/
def classifyPair (w1 w2 : JVal) : ClassifiedWindows :=
  applyFallback (classifyStep (classifyStep ⟨none, none, []⟩ w1) w2)

/-- `classifyWindows` (quota.ts lines 600–631) on a possibly-undefined limit
object. -/
def classifyWindows (limitInfo : Option JVal) : ClassifiedWindows :=
  if !truthyOpt limitInfo then ⟨none, none, []⟩
  else
    let li := limitInfo.getD .null
    let w1 := (jsCoalesce (li.get? "primary_window") (li.get? "primaryWindow")).getD .null
    let w2 := (jsCoalesce (li.get? "secondary_window") (li.get? "secondaryWindow")).getD .null
    classifyPair w1 w2

/-- `limitInfo?.k` (optional chaining on a possibly-undefined limit object). -/
def liGet (limitInfo : Option JVal) (k : String) : Option JVal :=
  match limitInfo with
  | none => none
  | some .null => none
  | some v => v.get? k

/-- The used-percent resolution of `addWindow` (quota.ts lines 636–649):
`used_percent ?? usedPercent` parsed when non-nullish; on NaN, a truthy
`limit_reached` or `allowed === false` means fully used, else undetermined;
finally clamped to [0, 100]. -/
def windowUsedPercent (w : JVal) (limitInfo : Option JVal) : Option ℚ :=
  let rawUsedPercent := jsCoalesce (w.get? "used_percent") (w.get? "usedPercent")
  let parsed : Option ℚ :=
    match rawUsedPercent with
    | some .null => none
    | none => none
    | some v => parseFloatVal (some v)
  let resolved : Option ℚ :=
    match parsed with
    | some q => some q
    | none =>
      let limitReached := jsCoalesce (liGet limitInfo "limit_reached") (liGet limitInfo "limitReached")
      let allowedFalse : Bool :=
        match liGet limitInfo "allowed" with
        | some (.bool false) => true
        | _ => false
      if truthyOpt limitReached || allowedFalse then some 100 else none
  resolved.map clamp0100

/-- The reset-time resolution of `addWindow` (quota.ts lines 652–662, 670):
an absolute truthy `reset_at` is parsed directly, else a truthy
`reset_after_seconds` offsets the current time; a null, NaN or zero result is
left `undefined`. -/
def windowResetTime (w : JVal) (nowMs : ℤ) : Option ℚ :=
  let resetAt := jsCoalesce (w.get? "reset_at") (w.get? "resetAt")
  let resetAfterSeconds := jsCoalesce (w.get? "reset_after_seconds") (w.get? "resetAfterSeconds")
  let resetTime : Option ℚ :=
    if truthyOpt resetAt then parseFloatVal resetAt
    else if truthyOpt resetAfterSeconds then
      match parseFloatVal resetAfterSeconds with
      | some resetAfter => some ((⌊(nowMs : ℚ) / 1000 + resetAfter⌋ : ℤ) : ℚ)
      | none => none
    else none
  match resetTime with
  | some r => if qIsZero r then none else some r
  | none => none

/-- `addWindow` (quota.ts lines 633–672), returning the pushed item (if any)
instead of mutating `limits`. -/
def windowItem (window : Option JVal) (label : String) (limitInfo : Option JVal)
    (nowMs : ℤ) : Option QItem :=
  if !truthyOpt window then none
  else
    let w := window.getD .null
    let usedPercent := windowUsedPercent w limitInfo
    let remaining := usedPercent.map (fun u => max 0 (100 - u))
    some { label := label, percent := remaining, remaining := remaining,
           used := usedPercent, total := 100,
           resetTime := (windowResetTime w nowMs).map JVal.num }

/-- The items contributed by one limit object under its pair of labels plus
positional extras (quota.ts lines 674–682). -/
def limitItems (limitInfo : Option JVal) (label5h labelWeekly extraStem : String)
    (nowMs : ℤ) : List QItem :=
  let cw := classifyWindows limitInfo
  (windowItem cw.fiveHour label5h limitInfo nowMs).toList ++
  (windowItem cw.weekly labelWeekly limitInfo nowMs).toList ++
  cw.extra.enum.filterMap
    (fun iw => windowItem (some iw.2) (extraStem ++ toString (iw.1 + 1)) limitInfo nowMs)

/-- `codexQuota.parse` (quota.ts lines 580–687).  `planTypeFromFile` is the
pre-resolved fallback, `nowMs` makes the `Date.now()` read explicit. -/
def parse (data : JVal) (planTypeFromFile : Option String) (nowMs : ℤ) : CodexResult :=
  let planTypeFromApi := jsOrOpt (jsOrOpt (data.get? "plan_type") (data.get? "planType"))
    (some .null)
  let fromApi : Option String :=
    match planTypeFromApi with
    | some v => if jsTruthy v then some ((jsToString v).trim.toLower) else none
    | none => none
  let planType := fromApi.getD (planTypeFromFile.getD "unknown")
  let rateLimit := jsOrOpt (data.get? "rate_limit") (data.get? "rateLimit")
  let codeReviewLimit := jsOrOpt (data.get? "code_review_rate_limit")
    (data.get? "codeReviewRateLimit")
  let limits :=
    limitItems rateLimit "5h" "Weekly" "Window " nowMs ++
    limitItems codeReviewLimit "Review 5h" "Review Weekly" "Review " nowMs
  let promoCampaign :=
    match data.get? "promo" with
    | some .null => none
    | none => none
    | some p => p.get? "campaign_id"
  let campaignId : JVal :=
    match promoCampaign with
    | some v => if jsTruthy v then v else .null
    | none => .null
  { planType := planType, limits := limits, campaignId := campaignId }

end codexQuota

/-! ## Antigravity fetch (quota.ts lines 291–329)

The proxied call is made explicit: an oracle maps each candidate URL to the
outcome of `apiCallApi.request` there — either a transport error (a rejected
promise) or an envelope reply carrying the resolved status code and the raw
body.  The request body and headers do not influence the control flow being
verified and are omitted from the oracle. -/

inductive CallOutcome where
  | transport (e : JsError)
  | reply (statusCode : ℚ) (rawBody : Option JVal)

namespace antigravityQuota

/-- Build the normalized envelope of `apiCallApi.request` (quota.ts lines
32–37) from a reply: `bodyText` is `response.body || ''` and `body` is
`parseBody(response.body)`. -/
def mkResponse (statusCode : ℚ) (rawBody : Option JVal) : ApiCallResponse :=
  { statusCode := statusCode,
    bodyText := match rawBody with
      | some v => if jsTruthy v then v else .str ""
      | none => .str "",
    body := parseBody rawBody }

/-- The `lastError` recorded for one failed attempt (quota.ts lines 318–325):
a transport error is kept as-is; a non-2xx reply goes through
`createNon2xxError`; a 2xx reply with a falsy parsed body produces
`new Error(result.bodyText || 'HTTP <status>')`. -/
def attemptError : CallOutcome → JsError
  | .transport e => e
  | .reply sc rawBody =>
    let r := mkResponse sc rawBody
    if sc < 200 ∨ 300 ≤ sc then createNon2xxError r
    else
      { message :=
          if jsTruthy r.bodyText then jsToString r.bodyText
          else "HTTP " ++ qToString sc,
        statusCode := none }

/-- The success test of quota.ts line 314:
`result.statusCode >= 200 && result.statusCode < 300 && result.body`. -/
def isSuccess : CallOutcome → Bool
  | .transport _ => false
  | .reply sc rawBody => decide (200 ≤ sc) && decide (sc < 300) && jsTruthy (parseBody rawBody)

/-- The URL loop of `antigravityQuota.fetch` (quota.ts lines 302–328),
returning the list of URLs attempted together with the outcome. -/
def tryUrls (oracle : String → CallOutcome) :
    List String → Option JsError → List String × Except JsError AgResult
  | [], lastError =>
    ([], .error (lastError.getD { message := "Failed to fetch Antigravity quota" }))
  | url :: rest, _lastError =>
    match oracle url with
    | .reply sc rawBody =>
      if isSuccess (.reply sc rawBody) then
        ([url], .ok (parse (parseBody rawBody)))
      else
        let r := tryUrls oracle rest (some (attemptError (.reply sc rawBody)))
        (url :: r.1, r.2)
    | .transport e =>
      let r := tryUrls oracle rest (some e)
      (url :: r.1, r.2)

/-- `antigravityQuota.fetch` over the three candidate URLs. -/
def fetchModel (oracle : String → CallOutcome) : List String × Except JsError AgResult :=
  tryUrls oracle URLS none

end antigravityQuota

/-! ## Dispatch facade (quota.ts lines 695–725) -/

/-- The fields of a credential-file descriptor read by `fetchQuotaByType`.
Per the data model these are strings when present. -/
structure FileDesc where
  name : Option String := none
  type : Option String := none
  authIndex : Option String := none
  auth_index : Option String := none

inductive ResolverTag where
  | antigravity
  | geminiCli
  | codex
deriving DecidableEq

structure QuotaResult where
  type : String
  data : JVal

/-- `(file.type || '').toLowerCase()` (quota.ts line 696). -/
def dispatchedType (file : FileDesc) : String :=
  (match file.type with
   | some s => if s ≠ "" then s else ""
   | none => "").toLower

/-- `file.authIndex || file.auth_index` (quota.ts line 697). -/
def dispatchedAuthIndex (file : FileDesc) : Option String :=
  match file.authIndex with
  | some s => if s ≠ "" then some s else file.auth_index
  | none => file.auth_index

/-- Truthiness of the resolved auth index (`if (!authIndex)`). -/
def authIndexTruthy (file : FileDesc) : Bool :=
  match dispatchedAuthIndex file with
  | some s => s ≠ ""
  | none => false

/-- `fetchQuotaByType` (quota.ts lines 695–725).  The per-provider resolvers
are passed as an oracle from tag to fetch outcome; the returned list records
which resolvers were invoked, so that "no network call" is observable. -/
def fetchQuotaByType (file : FileDesc)
    (resolvers : ResolverTag → Except JsError JVal) :
    Except JsError QuotaResult × List ResolverTag :=
  let ty := dispatchedType file
  if !authIndexTruthy file then (.error { message := "Missing authIndex" }, [])
  else if ty = "antigravity" then
    ((resolvers .antigravity).map (fun d => { type := "antigravity", data := d }),
     [.antigravity])
  else if ty = "gemini-cli" then
    ((resolvers .geminiCli).map (fun d => { type := "gemini-cli", data := d }),
     [.geminiCli])
  else if ty = "codex" then
    ((resolvers .codex).map (fun d => { type := "codex", data := d }),
     [.codex])
  else (.error { message := "Unsupported type: " ++ ty }, [])

/-! ## Specification-side definitions

The definitions in this section transcribe what the specification text
*states*, for comparison against the source-derived definitions above. -/

/-- All matches of `\(([^()]+)\)` in scan order, as a global regex search
would produce them (each match's run contains no parentheses, so successive
matches never overlap). -/
def parenGroupsAux : List Char → List String
  | [] => []
  | c :: rest =>
    if c = '(' then
      let run := rest.takeWhile (fun d => d ≠ '(' && d ≠ ')')
      if !run.isEmpty && (rest.drop run.length).head? = some ')' then
        String.mk run :: parenGroupsAux rest
      else parenGroupsAux rest
    else parenGroupsAux rest

/-- The spec reading of the Gemini-CLI project id: the *last* parenthesized
group of the account string. -/
def lastParenGroup (s : String) : Option String := (parenGroupsAux s.data).getLast?

/-- The error-object shape test of the claim on `createNon2xxError`: the
parsed body matching `{ error: { code?, message? } }`, with the optional
parts read as trimmed non-empty strings. -/
def claimErrorShape (result : ApiCallResponse) : Option (Option String × Option String) :=
  if jsTruthy result.body && typeofObject result.body then
    match result.body.get? "error" with
    | some e =>
      if jsTruthy e && typeofObject e then
        some (normalizeText (e.get? "code"), normalizeText (e.get? "message"))
      else none
    | none => none
  else none

/-- The message `createNon2xxError` is claimed to produce: if the parsed body
has the error-object shape, format `HTTP <code> <errorCode>: <message>`
omitting absent parts; otherwise the raw body text; otherwise the bare
`HTTP <code>`. -/
def claimC8Message (result : ApiCallResponse) : String :=
  let pre : String :=
    match resolveStatusCode result with
    | some c => "HTTP " ++ qToString c
    | none => "HTTP error"
  match claimErrorShape result with
  | some (some ec, some m) => pre ++ " " ++ ec ++ ": " ++ m
  | some (some ec, none) => pre ++ " " ++ ec
  | some (none, some m) => pre ++ ": " ++ m
  | some (none, none) => pre
  | none =>
    match getOriginalErrorText result with
    | some s => s
    | none => pre

/-- The amended message specification: the structured format applies only
when at least one of `error.code` / `error.message` is a trimmed non-empty
string; an error object carrying neither falls back to the raw body text like
a shapeless body does. -/
def amendedC8Message (result : ApiCallResponse) : String :=
  let pre : String :=
    match resolveStatusCode result with
    | some c => "HTTP " ++ qToString c
    | none => "HTTP error"
  let fallback : String :=
    match getOriginalErrorText result with
    | some s => s
    | none => pre
  match claimErrorShape result with
  | some (some ec, some m) => pre ++ " " ++ ec ++ ": " ++ m
  | some (some ec, none) => pre ++ " " ++ ec
  | some (none, some m) => pre ++ ": " ++ m
  | some (none, none) => fallback
  | none => fallback

/-- The success test the claim attributes to the Antigravity URL loop: status
in [200,300) and a non-empty body string. -/
def claimAgSuccess : CallOutcome → Bool
  | .reply sc (some (.str s)) => decide (200 ≤ sc) && decide (sc < 300) && decide (s ≠ "")
  | _ => false

/-- The i-th candidate URL. -/
def agUrlAt (i : ℕ) : String := antigravityQuota.URLS.getD i ""

/-- The parsed body carried by one call outcome (null for a transport
error, which never reaches the parse step). -/
def outcomeBody : CallOutcome → JVal
  | .reply _ rawBody => parseBody rawBody
  | .transport _ => .null

/-- The parsed body of the reply at the i-th URL. -/
def agParsedBodyAt (oracle : String → CallOutcome) (i : ℕ) : JVal :=
  outcomeBody (oracle (agUrlAt i))

/-- Claim C4 as stated, as a property of one response oracle: the first
attempt with a 2xx status and a non-empty body is parsed and returned with no
further URL attempted, and if all three attempts fail the loop throws the
error of the last attempt. -/
def ClaimC4 (oracle : String → CallOutcome) : Prop :=
  (∀ i : ℕ, i < 3 →
    (∀ j : ℕ, j < i → claimAgSuccess (oracle (agUrlAt j)) = false) →
    claimAgSuccess (oracle (agUrlAt i)) = true →
    antigravityQuota.fetchModel oracle =
      (antigravityQuota.URLS.take (i + 1),
       .ok (antigravityQuota.parse (agParsedBodyAt oracle i)))) ∧
  ((∀ i : ℕ, i < 3 → claimAgSuccess (oracle (agUrlAt i)) = false) →
    (antigravityQuota.fetchModel oracle).2 =
      .error (antigravityQuota.attemptError (oracle (agUrlAt 2))))

/-- The bucket fraction as claim C9 states it: try a percentage string, then
a bare number; if unparseable, a *present* `remainingAmount` field decides by
sign; else a present `resetTime` is evidence of exhaustion.  Fields are read
by presence (camelCase preferred), not by truthiness. -/
def claimC9Fraction (bucket : JVal) : Option ℚ :=
  let raw := jsCoalesce (bucket.get? "remainingFraction") (bucket.get? "remaining_fraction")
  let parsed : Option ℚ :=
    match raw with
    | some (.str s) =>
      if s.endsWith "%" then (jsParseFloat s).map (· / 100) else jsParseFloat s
    | other => parseFloatVal other
  match parsed with
  | some q => some q
  | none =>
    match jsCoalesce (bucket.get? "remainingAmount") (bucket.get? "remaining_amount") with
    | some .null =>
      if (jsCoalesce (bucket.get? "resetTime") (bucket.get? "reset_time")).isSome
      then some 0 else none
    | none =>
      if (jsCoalesce (bucket.get? "resetTime") (bucket.get? "reset_time")).isSome
      then some 0 else none
    | some v => if jsLeZero v then some 0 else none

/-- One output bucket as claim C9 states it. -/
def claimC9Item (bucket : JVal) : Option QItem :=
  match jsCoalesce (bucket.get? "modelId") (bucket.get? "model_id") with
  | some (.str s) =>
    if s = "" then none
    else
      let modelId := if s.endsWith "_vertex" then s.dropRight 7 else s
      match claimC9Fraction bucket with
      | none => none
      | some q =>
        let percent := jsRound (clamp01 q * 100)
        some { label := modelId, percent := some percent, remaining := some percent,
               used := some (100 - percent), total := 100,
               resetTime := jsOrOpt (bucket.get? "resetTime") (bucket.get? "reset_time") }
  | _ => none

/-- `geminiCliQuota.parse` as claim C9 states it. -/
def claimC9Parse (data : JVal) : GcResult :=
  match data.get? "buckets" with
  | some (.arr bs) => { buckets := bs.filterMap claimC9Item }
  | _ => { buckets := [] }

/-- The trailing `_vertex` normalization named by claims C9. -/
def stripVertex (s : String) : String :=
  if s.endsWith "_vertex" then s.dropRight 7 else s

/-- The raw bucket list `geminiCliQuota.parse` iterates over
(`data.buckets || []`, kept only when it is an array). -/
def rawBucketsOf (data : JVal) : List JVal :=
  match (jsOrOpt (data.get? "buckets") (some (.arr []))).getD (.arr []) with
  | .arr bs => bs
  | _ => []

/-! ## Concrete instances used by the theorems below -/

/-- An upstream Antigravity `models` map whose "Gemini 2.5 Flash" group
matches two models with remaining fractions 0.9 and 0.2. -/
def agFlashModels : JVal := .obj [
  ("gemini-2.5-flash", .obj [("quotaInfo", .obj [("remainingFraction", .num (9/10))])]),
  ("gemini-2.5-flash-thinking", .obj [("quotaInfo", .obj [("remainingFraction", .num (2/10))])])]

/-- Upstream Antigravity payload carrying `agFlashModels`. -/
def agFlashData : JVal := .obj [("models", agFlashModels)]

/-- The "Gemini 2.5 Flash" entry of the fixed group table. -/
def flashGroup : antigravityQuota.GroupDef :=
  { id := "gemini-2-5-flash", label := "Gemini 2.5 Flash",
    identifiers := ["gemini-2.5-flash", "gemini-2.5-flash-thinking"] }

/-- Upstream Antigravity payload with `remainingFraction: "30%"` on the
`gemini-2.5-pro` model. -/
def agProData : JVal := .obj [("models", .obj [
  ("gemini-2.5-pro", .obj [("quotaInfo", .obj [("remainingFraction", .str "30%")])])])]

/-- Codex payload: a rate limit whose primary window matches the five-hour
constant and whose secondary window reports unrecognized seconds. -/
def codexDataMatched : JVal := .obj [("rate_limit", .obj [
  ("primary_window", .obj [("limit_window_seconds", .num 18000), ("used_percent", .num 75)]),
  ("secondary_window", .obj [("limit_window_seconds", .num 999), ("used_percent", .num 50)])])]

/-- Codex payload: a rate limit whose two windows both report unrecognized
seconds. -/
def codexDataPositional : JVal := .obj [("rate_limit", .obj [
  ("primary_window", .obj [("limit_window_seconds", .num 7), ("used_percent", .num 75)]),
  ("secondary_window", .obj [("limit_window_seconds", .num 9), ("used_percent", .num 50)])])]

/-- Codex payload: both windows duration-classified (the spec's own example:
5h at 75% used, weekly at 10% used). -/
def codexDataBoth : JVal := .obj [("rate_limit", .obj [
  ("primary_window", .obj [("limit_window_seconds", .num 18000), ("used_percent", .num 75)]),
  ("secondary_window", .obj [("limit_window_seconds", .num 604800), ("used_percent", .num 10)])])]

/-- Response oracle refuting claim C4: the first URL answers 200 with body
`"0"` (non-empty, but its JSON parse is the falsy number 0), the others
answer 200 with the truthy body `"[1]"`. -/
def c4CexOracle : String → CallOutcome := fun url =>
  if url = agUrlAt 0 then .reply 200 (some (.str "0"))
  else .reply 200 (some (.str "[1]"))

/-- Response oracle for the amended loop theorem: two HTTP 500 failures, then
a 200 with a truthy body. -/
def c4WitnessOracle : String → CallOutcome := fun url =>
  if url = agUrlAt 2 then .reply 200 (some (.str "[1]"))
  else .reply 500 none

/-- A non-2xx response whose parsed body is `\x7b"error":\x7b\x7d\x7d`: the
error-object shape matches with both optional parts absent. -/
def c8CexResponse : ApiCallResponse :=
  { statusCode := 500,
    bodyText := .str "\x7b\"error\":\x7b\x7d\x7d",
    body := .obj [("error", .obj [])] }

/-- A Gemini-CLI bucket whose `remainingFraction` is the bare number 0. -/
def c9ZeroBucket : JVal := .obj [("modelId", .str "m"), ("remainingFraction", .num 0)]

def c9ZeroData : JVal := .obj [("buckets", .arr [c9ZeroBucket])]

/-- A Gemini-CLI payload with a `_vertex`-suffixed model id and a percentage
string fraction. -/
def c9VertexData : JVal := .obj [("buckets", .arr [.obj [
  ("modelId", .str "gemini-pro_vertex"), ("remainingFraction", .str "50%")]])]

/-- Wrap one bucket object into a Gemini-CLI payload. -/
def gcData (bucket : JVal) : JVal := .obj [("buckets", .arr [bucket])]

/-- A valid JWT-shaped token whose payload is the base64url encoding of
`\x7b"chatgpt_account_id":"acct_123"\x7d`. -/
def c7GoodToken : String := "header.eyJjaGF0Z3B0X2FjY291bnRfaWQiOiJhY2N0XzEyMyJ9.sig"

/-! ## Shared lemmas -/

/-- The invariant claimed for every normalized quota item. -/
def ItemInv (it : QItem) : Prop :=
  (∀ p, it.percent = some p →
    0 ≤ p ∧ p ≤ 100 ∧ it.remaining = some p ∧ it.used = some (100 - p) ∧ it.total = 100) ∧
  (it.percent = none → it.used = none)

theorem clamp01_nonneg (q : ℚ) : 0 ≤ clamp01 q := le_max_left 0 _

theorem clamp01_le_one (q : ℚ) : clamp01 q ≤ 1 :=
  max_le zero_le_one (min_le_left 1 q)

theorem clamp0100_nonneg (q : ℚ) : 0 ≤ clamp0100 q := le_max_left 0 _

theorem clamp0100_le (q : ℚ) : clamp0100 q ≤ 100 :=
  max_le (by norm_num) (min_le_left 100 q)

theorem jsRound_bounds {q : ℚ} (h0 : 0 ≤ q) (h1 : q ≤ 100) :
    0 ≤ jsRound q ∧ jsRound q ≤ 100 := by
  unfold jsRound
  constructor
  · exact_mod_cast Int.le_floor.mpr (by linarith)
  · have h : ⌊q + 1/2⌋ ≤ 100 := by
      have hle := Int.floor_le_floor (α := ℚ) (show q + 1/2 ≤ 100 + 1/2 by linarith)
      simpa using hle.trans (by norm_num [Int.floor_eq_iff])
    exact_mod_cast h

theorem foldl_min_bounds {l : List ℚ} {a lo hi : ℚ} (ha1 : lo ≤ a) (ha2 : a ≤ hi)
    (hl : ∀ x ∈ l, lo ≤ x ∧ x ≤ hi) :
    lo ≤ l.foldl min a ∧ l.foldl min a ≤ hi := by
  induction l generalizing a with
  | nil => exact ⟨ha1, ha2⟩
  | cons x xs ih =>
    simp only [List.foldl_cons]
    exact ih (le_min ha1 (hl x (by simp)).1) ((min_le_left a x).trans ha2)
      (fun y hy => hl y (by simp [hy]))

theorem mkQuotaEntry_frac {p : String × JVal} {x : antigravityQuota.AgQuotaEntry}
    (h : antigravityQuota.mkQuotaEntry p = some x) :
    0 ≤ x.remainingFraction ∧ x.remainingFraction ≤ 1 := by
  simp only [antigravityQuota.mkQuotaEntry] at h
  split at h
  · exact absurd h (by simp)
  · injection h with h
    subst h
    exact ⟨clamp01_nonneg _, clamp01_le_one _⟩

theorem groupEntries_frac {models : JVal} {g : antigravityQuota.GroupDef}
    {x : antigravityQuota.AgQuotaEntry}
    (hx : x ∈ antigravityQuota.groupEntries models g) :
    0 ≤ x.remainingFraction ∧ x.remainingFraction ≤ 1 := by
  obtain ⟨p, _, hp⟩ := List.mem_filterMap.mp hx
  exact mkQuotaEntry_frac hp

theorem processGroup_itemInv {models : JVal} {g : antigravityQuota.GroupDef} {it : QItem}
    (h : antigravityQuota.processGroup models g = some it) : ItemInv it := by
  simp only [antigravityQuota.processGroup] at h
  split at h
  · exact absurd h (by simp)
  · split at h
    · exact absurd h (by simp)
    · rename_i e es hentries
      injection h with h
      subst h
      have hbounds : 0 ≤ (es.map (·.remainingFraction)).foldl min e.remainingFraction ∧
          (es.map (·.remainingFraction)).foldl min e.remainingFraction ≤ 1 := by
        have he : e ∈ antigravityQuota.groupEntries models g := by
          rw [hentries]; exact List.mem_cons_self e es
        refine foldl_min_bounds (groupEntries_frac he).1 (groupEntries_frac he).2 ?_
        intro x hxm
        obtain ⟨y, hy, hyx⟩ := List.mem_map.mp hxm
        have : y ∈ antigravityQuota.groupEntries models g := by
          rw [hentries]; exact List.mem_cons_of_mem e hy
        exact hyx ▸ groupEntries_frac this
      have hr : 0 ≤ jsRound ((es.map (·.remainingFraction)).foldl min e.remainingFraction * 100) ∧
          jsRound ((es.map (·.remainingFraction)).foldl min e.remainingFraction * 100) ≤ 100 :=
        jsRound_bounds (by nlinarith [hbounds.1, hbounds.2]) (by nlinarith [hbounds.1, hbounds.2])
      constructor
      · intro p hp
        simp only [Option.some.injEq] at hp
        subst hp
        exact ⟨hr.1, hr.2, rfl, rfl, rfl⟩
      · intro hp
        simp at hp

theorem bucketItem_itemInv {bucket : JVal} {it : QItem}
    (h : geminiCliQuota.bucketItem bucket = some it) : ItemInv it := by
  simp only [geminiCliQuota.bucketItem] at h
  split at h
  · exact absurd h (by simp)
  · split at h
    · exact absurd h (by simp)
    · rename_i q _
      injection h with h
      subst h
      have hr : 0 ≤ jsRound (clamp01 q * 100) ∧ jsRound (clamp01 q * 100) ≤ 100 :=
        jsRound_bounds (by nlinarith [clamp01_nonneg q, clamp01_le_one q])
          (by nlinarith [clamp01_nonneg q, clamp01_le_one q])
      constructor
      · intro p hp
        simp only [Option.some.injEq] at hp
        subst hp
        exact ⟨hr.1, hr.2, rfl, rfl, rfl⟩
      · intro hp
        simp at hp

theorem windowUsedPercent_bounds {w : JVal} {li : Option JVal} {u : ℚ}
    (h : codexQuota.windowUsedPercent w li = some u) : 0 ≤ u ∧ u ≤ 100 := by
  simp only [codexQuota.windowUsedPercent] at h
  rw [Option.map_eq_some'] at h
  obtain ⟨r, _, hr⟩ := h
  subst hr
  exact ⟨clamp0100_nonneg r, clamp0100_le r⟩

theorem windowItem_itemInv {window : Option JVal} {label : String} {li : Option JVal}
    {nowMs : ℤ} {it : QItem}
    (h : codexQuota.windowItem window label li nowMs = some it) : ItemInv it := by
  simp only [codexQuota.windowItem] at h
  split at h
  · exact absurd h (by simp)
  · injection h with h
    subst h
    cases hu : codexQuota.windowUsedPercent (window.getD .null) li with
    | none =>
      constructor
      · intro p hp
        simp [hu] at hp
      · intro _
        simp [hu]
    | some u =>
      have hb := windowUsedPercent_bounds hu
      constructor
      · intro p hp
        simp only [hu, Option.map_some', Option.some.injEq] at hp
        subst hp
        have hmax : max 0 (100 - u) = 100 - u := max_eq_right (by linarith [hb.2])
        refine ⟨by rw [hmax]; linarith [hb.2], by rw [hmax]; linarith [hb.1], rfl, ?_, rfl⟩
        simp only [hu]
        congr 1
        rw [hmax]
        ring
      · intro hp
        simp [hu] at hp

theorem limitItems_itemInv {li : Option JVal} {a b c : String} {nowMs : ℤ} {it : QItem}
    (h : it ∈ codexQuota.limitItems li a b c nowMs) : ItemInv it := by
  simp only [codexQuota.limitItems, List.mem_append] at h
  rcases h with (h | h) | h
  · rw [Option.mem_toList, Option.mem_def] at h
    exact windowItem_itemInv h
  · rw [Option.mem_toList, Option.mem_def] at h
    exact windowItem_itemInv h
  · obtain ⟨iw, _, hw⟩ := List.mem_filterMap.mp h
    exact windowItem_itemInv hw

/-- C1: every normalized quota item produced by the three parse functions has
`percent` in [0,100] when non-null, with `remaining = percent`,
`used = 100 - percent` and `total = 100`, and a null `percent` forces a null
`used`. -/
theorem quota_items_percent_invariants :
    (∀ data : JVal, ∀ it ∈ (antigravityQuota.parse data).groups, ItemInv it) ∧
    (∀ data : JVal, ∀ it ∈ (geminiCliQuota.parse data).buckets, ItemInv it) ∧
    (∀ (data : JVal) (planTypeFromFile : Option String) (nowMs : ℤ),
      ∀ it ∈ (codexQuota.parse data planTypeFromFile nowMs).limits, ItemInv it) := by
  refine ⟨?_, ?_, ?_⟩
  · intro data it hmem
    simp only [antigravityQuota.parse] at hmem
    split at hmem
    · obtain ⟨g, _, hg⟩ := List.mem_filterMap.mp hmem
      exact processGroup_itemInv hg
    · simp at hmem
  · intro data it hmem
    simp only [geminiCliQuota.parse] at hmem
    split at hmem
    · obtain ⟨b, _, hb⟩ := List.mem_filterMap.mp hmem
      exact bucketItem_itemInv hb
    · simp at hmem
  · intro data planTypeFromFile nowMs it hmem
    simp only [codexQuota.parse, List.mem_append] at hmem
    rcases hmem with h | h
    · exact limitItems_itemInv h
    · exact limitItems_itemInv h

theorem findModel_empty (ids : List String) :
    antigravityQuota.findModel (.obj []) ids = none := by
  induction ids with
  | nil => rfl
  | cons id rest ih =>
    simp [antigravityQuota.findModel, JVal.get?, antigravityQuota.fieldsOf, ih]

theorem processGroup_empty (g : antigravityQuota.GroupDef) :
    antigravityQuota.processGroup (.obj []) g = none := by
  have hm : antigravityQuota.groupMatches (.obj []) g = [] :=
    List.filterMap_eq_nil_iff.mpr (fun i _ => findModel_empty [i])
  simp [antigravityQuota.processGroup, hm]

theorem quota_items_percent_invariants_witness :
    ItemInv { label := "Gemini 2.5 Pro", percent := some 30, remaining := some 30,
              used := some 70, total := 100, resetTime := none, hideInTable := false } :=
  quota_items_percent_invariants.1 agProData _ (by
    rw [show (antigravityQuota.parse agProData).groups =
      [{ label := "Gemini 2.5 Pro", percent := some 30, remaining := some 30,
         used := some 70, total := 100, resetTime := none, hideInTable := false }] from by
      with_unfolding_all rfl]
    exact List.mem_singleton_self _)

/-- C3: for every group with at least one matched model carrying a
determinable remaining fraction, the emitted percent is the minimum of the
(clamped) fractions of the surviving entries, times 100, rounded; in
particular matched fractions 0.9 and 0.2 yield percent 20, and a "30%"
percentage string yields percent 30. -/
theorem antigravity_group_min_rule :
    (∀ (models : JVal) (g : antigravityQuota.GroupDef) (it : QItem),
      antigravityQuota.processGroup models g = some it →
      ∃ e es, antigravityQuota.groupEntries models g = e :: es ∧
        it.percent = some (jsRound
          ((es.map (·.remainingFraction)).foldl min e.remainingFraction * 100))) ∧
    (antigravityQuota.parse agFlashData).groups.map (fun it => (it.label, it.percent)) =
      [("Gemini 2.5 Flash", some 20)] ∧
    (antigravityQuota.parse agProData).groups.map (fun it => (it.label, it.percent)) =
      [("Gemini 2.5 Pro", some 30)] := by
  refine ⟨?_, by with_unfolding_all rfl, by with_unfolding_all rfl⟩
  intro models g it h
  simp only [antigravityQuota.processGroup] at h
  split at h
  · exact absurd h (by simp)
  · split at h
    · exact absurd h (by simp)
    · rename_i e es hentries
      injection h with h
      subst h
      exact ⟨e, es, hentries, rfl⟩

theorem antigravity_group_min_rule_witness :
    ∃ e es, antigravityQuota.groupEntries agFlashModels flashGroup = e :: es ∧
      (some (20 : ℚ) : Option ℚ) = some (jsRound
        ((es.map (·.remainingFraction)).foldl min e.remainingFraction * 100)) :=
  antigravity_group_min_rule.1 agFlashModels flashGroup
    { label := "Gemini 2.5 Flash", percent := some 20, remaining := some 20,
      used := some 80, total := 100, resetTime := none, hideInTable := false }
    (by with_unfolding_all rfl)

/-- C10: for every non-null input, `antigravityQuota.parse` returns an empty
group list without throwing whenever the `models` field is absent, not an
object, or an array; and `geminiCliQuota.parse` returns an empty bucket list
whenever the `buckets` field is absent, not an array, or an empty array. -/
theorem parse_defensive_empty_results :
    (∀ data : JVal, data ≠ .null →
      (match data.get? "models" with
       | some (.obj _) => False
       | _ => True) →
      antigravityQuota.parse data = { groups := [] }) ∧
    (∀ data : JVal, data ≠ .null →
      (match data.get? "buckets" with
       | some (.arr (_ :: _)) => False
       | _ => True) →
      geminiCliQuota.parse data = { buckets := [] }) := by
  constructor
  · intro data _hnn hcond
    have hnil : antigravityQuota.modelGroups.filterMap
        (antigravityQuota.processGroup (.obj [])) = [] :=
      List.filterMap_eq_nil_iff.mpr (fun g _ => processGroup_empty g)
    simp only [antigravityQuota.parse]
    cases hm : data.get? "models" with
    | none => simpa [jsOrOpt] using hnil
    | some v =>
      rw [hm] at hcond
      cases v with
      | obj fields => simp at hcond
      | null => simpa [jsOrOpt, jsTruthy] using hnil
      | arr es => simp [jsOrOpt, jsTruthy]
      | bool b =>
        cases b with
        | true => simp [jsOrOpt, jsTruthy]
        | false => simpa [jsOrOpt, jsTruthy] using hnil
      | num q =>
        by_cases hq : q = 0
        · simpa [jsOrOpt, jsTruthy, qIsZero, hq] using hnil
        · simp [jsOrOpt, jsTruthy, qIsZero, Rat.num_eq_zero, hq]
      | str s =>
        by_cases hs : s = ""
        · simpa [jsOrOpt, jsTruthy, hs] using hnil
        · simp [jsOrOpt, jsTruthy, hs]
  · intro data _hnn hcond
    simp only [geminiCliQuota.parse]
    cases hm : data.get? "buckets" with
    | none => simp [jsOrOpt]
    | some v =>
      rw [hm] at hcond
      cases v with
      | arr es =>
        cases es with
        | nil => simp [jsOrOpt, jsTruthy]
        | cons b bs => simp at hcond
      | obj fields => simp [jsOrOpt, jsTruthy]
      | null => simp [jsOrOpt, jsTruthy]
      | bool b =>
        cases b with
        | true => simp [jsOrOpt, jsTruthy]
        | false => simp [jsOrOpt, jsTruthy]
      | num q =>
        by_cases hq : q = 0
        · simp [jsOrOpt, jsTruthy, qIsZero, hq]
        · simp [jsOrOpt, jsTruthy, qIsZero, Rat.num_eq_zero, hq]
      | str s =>
        by_cases hs : s = ""
        · simp [jsOrOpt, jsTruthy, hs]
        · simp [jsOrOpt, jsTruthy, hs]

theorem parse_defensive_empty_results_witness :
    antigravityQuota.parse (.obj [("models", .str "nope")]) = { groups := [] } ∧
    geminiCliQuota.parse (.obj [("buckets", .num 5)]) = { buckets := [] } :=
  ⟨parse_defensive_empty_results.1 (.obj [("models", .str "nope")])
      (fun h => JVal.noConfusion h) (by with_unfolding_all trivial),
   parse_defensive_empty_results.2 (.obj [("buckets", .num 5)])
      (fun h => JVal.noConfusion h) (by with_unfolding_all trivial)⟩
theorem qBeq_iff {a b : ℚ} : qBeq a b = true ↔ a = b := by
  unfold qBeq
  rw [Bool.and_eq_true, beq_iff_eq, beq_iff_eq]
  constructor
  · rintro ⟨h1, h2⟩
    exact Rat.ext h1 h2
  · rintro rfl
    exact ⟨rfl, rfl⟩

theorem secondsIs_iff {o : Option ℚ} {c : ℚ} :
    codexQuota.secondsIs o c = true ↔ o = some c := by
  cases o <;> simp [codexQuota.secondsIs, qBeq_iff]

theorem secondsIs_false {o : Option ℚ} {c : ℚ} (h : o ≠ some c) :
    codexQuota.secondsIs o c = false :=
  Bool.eq_false_iff.mpr (fun hh => h (secondsIs_iff.mp hh))

set_option maxRecDepth 8000 in
set_option maxHeartbeats 2000000 in
/-- C2: windows with `limit_window_seconds` exactly 18000 resp. 604800 are
classified into the "5h" resp. "Weekly" slots; when neither window is
duration-classified the unmatched windows are assigned positionally
(first to 5h, second to Weekly, no extras); when at least one window is
duration-classified the positional fallback never triggers and a remaining
unmatched window is emitted separately, labeled positionally
("Window N" / "Review N" in the parse output). -/
theorem codex_window_classification :
    (∀ w1 w2 : JVal, jsTruthy w1 = true →
      codexQuota.getWindowSeconds w1 = some 18000 →
      (codexQuota.classifyPair w1 w2).fiveHour = some w1) ∧
    (∀ w1 w2 : JVal, jsTruthy w2 = true →
      codexQuota.getWindowSeconds w2 = some 18000 →
      codexQuota.getWindowSeconds w1 ≠ some 18000 →
      (codexQuota.classifyPair w1 w2).fiveHour = some w2) ∧
    (∀ w1 w2 : JVal, jsTruthy w1 = true →
      codexQuota.getWindowSeconds w1 = some 604800 →
      (codexQuota.classifyPair w1 w2).weekly = some w1) ∧
    (∀ w1 w2 : JVal, jsTruthy w2 = true →
      codexQuota.getWindowSeconds w2 = some 604800 →
      codexQuota.getWindowSeconds w1 ≠ some 604800 →
      (codexQuota.classifyPair w1 w2).weekly = some w2) ∧
    (∀ w1 w2 : JVal, jsTruthy w1 = true → jsTruthy w2 = true →
      codexQuota.getWindowSeconds w1 ≠ some 18000 →
      codexQuota.getWindowSeconds w1 ≠ some 604800 →
      codexQuota.getWindowSeconds w2 ≠ some 18000 →
      codexQuota.getWindowSeconds w2 ≠ some 604800 →
      codexQuota.classifyPair w1 w2 = ⟨some w1, some w2, []⟩) ∧
    (∀ w1 w2 : JVal, jsTruthy w1 = true → jsTruthy w2 = false →
      codexQuota.getWindowSeconds w1 ≠ some 18000 →
      codexQuota.getWindowSeconds w1 ≠ some 604800 →
      codexQuota.classifyPair w1 w2 = ⟨some w1, none, []⟩) ∧
    (∀ w1 w2 : JVal, jsTruthy w1 = false → jsTruthy w2 = true →
      codexQuota.getWindowSeconds w2 ≠ some 18000 →
      codexQuota.getWindowSeconds w2 ≠ some 604800 →
      codexQuota.classifyPair w1 w2 = ⟨some w2, none, []⟩) ∧
    (∀ w1 w2 : JVal, jsTruthy w1 = true → jsTruthy w2 = true →
      (codexQuota.getWindowSeconds w1 = some 18000 ∨
       codexQuota.getWindowSeconds w1 = some 604800) →
      codexQuota.getWindowSeconds w2 ≠ some 18000 →
      codexQuota.getWindowSeconds w2 ≠ some 604800 →
      (codexQuota.classifyPair w1 w2).extra = [w2]) ∧
    (∀ w1 w2 : JVal, jsTruthy w1 = true → jsTruthy w2 = true →
      codexQuota.getWindowSeconds w1 ≠ some 18000 →
      codexQuota.getWindowSeconds w1 ≠ some 604800 →
      (codexQuota.getWindowSeconds w2 = some 18000 ∨
       codexQuota.getWindowSeconds w2 = some 604800) →
      (codexQuota.classifyPair w1 w2).extra = [w1]) ∧
    (codexQuota.parse codexDataMatched none 0).limits.map (·.label) =
      ["5h", "Window 1"] ∧
    (codexQuota.parse codexDataPositional none 0).limits.map (·.label) =
      ["5h", "Weekly"] ∧
    (codexQuota.parse codexDataBoth none 0).limits.map
      (fun it => (it.label, it.used, it.remaining)) =
      [("5h", some 75, some 25), ("Weekly", some 10, some 90)] := by
  have hne : ∀ w : JVal, codexQuota.getWindowSeconds w = some 18000 →
      codexQuota.getWindowSeconds w ≠ some 604800 := by
    intro w h hc
    rw [h] at hc
    norm_num at hc
  have hne2 : ∀ w : JVal, codexQuota.getWindowSeconds w = some 604800 →
      codexQuota.getWindowSeconds w ≠ some 18000 := by
    intro w h hc
    rw [h] at hc
    norm_num at hc
  refine ⟨?_, ?_, ?_, ?_, ?_, ?_, ?_, ?_, ?_,
    by with_unfolding_all rfl, by with_unfolding_all rfl, by with_unfolding_all rfl⟩
  · intro w1 w2 h1 h5
    simp only [codexQuota.classifyPair, codexQuota.classifyStep, codexQuota.FIVE_HOUR_SECONDS,
      codexQuota.WEEK_SECONDS, h1, secondsIs_iff.mpr h5]
    split_ifs <;> simp_all [codexQuota.applyFallback]
  · intro w1 w2 h2 h25 h15
    by_cases t1 : jsTruthy w1 <;>
      simp only [codexQuota.classifyPair, codexQuota.classifyStep, codexQuota.FIVE_HOUR_SECONDS,
        codexQuota.WEEK_SECONDS, t1, secondsIs_iff.mpr h25, secondsIs_false h15] <;>
      split_ifs <;> simp_all [codexQuota.applyFallback]
  · intro w1 w2 h1 h1w
    simp only [codexQuota.classifyPair, codexQuota.classifyStep, codexQuota.FIVE_HOUR_SECONDS,
      codexQuota.WEEK_SECONDS, h1, secondsIs_iff.mpr h1w, secondsIs_false (hne2 w1 h1w)]
    split_ifs <;> simp_all [codexQuota.applyFallback]
  · intro w1 w2 h2 h2w h1nw
    by_cases t1 : jsTruthy w1
    · by_cases h15 : codexQuota.getWindowSeconds w1 = some 18000
      · simp only [codexQuota.classifyPair, codexQuota.classifyStep, codexQuota.FIVE_HOUR_SECONDS,
          codexQuota.WEEK_SECONDS, t1, h2, secondsIs_iff.mpr h15, secondsIs_iff.mpr h2w,
          secondsIs_false h1nw, secondsIs_false (hne2 w2 h2w)]
        split_ifs <;> simp_all [codexQuota.applyFallback]
      · simp only [codexQuota.classifyPair, codexQuota.classifyStep, codexQuota.FIVE_HOUR_SECONDS,
          codexQuota.WEEK_SECONDS, t1, h2, secondsIs_iff.mpr h2w, secondsIs_false h1nw,
          secondsIs_false h15, secondsIs_false (hne2 w2 h2w)]
        split_ifs <;> simp_all [codexQuota.applyFallback]
    · simp only [codexQuota.classifyPair, codexQuota.classifyStep, codexQuota.FIVE_HOUR_SECONDS,
        codexQuota.WEEK_SECONDS, t1, h2, secondsIs_iff.mpr h2w, secondsIs_false h1nw,
        secondsIs_false (hne2 w2 h2w)]
      split_ifs <;> simp_all [codexQuota.applyFallback]
  · intro w1 w2 t1 t2 h15 h1w h25 h2w
    simp only [codexQuota.classifyPair, codexQuota.classifyStep, codexQuota.FIVE_HOUR_SECONDS,
      codexQuota.WEEK_SECONDS, t1, t2, secondsIs_false h15, secondsIs_false h1w,
      secondsIs_false h25, secondsIs_false h2w]
    split_ifs <;> simp_all [codexQuota.applyFallback]
  · intro w1 w2 t1 t2 h15 h1w
    simp only [codexQuota.classifyPair, codexQuota.classifyStep, codexQuota.FIVE_HOUR_SECONDS,
      codexQuota.WEEK_SECONDS, t1, t2, secondsIs_false h15, secondsIs_false h1w]
    split_ifs <;> simp_all [codexQuota.applyFallback]
  · intro w1 w2 t1 t2 h25 h2w
    simp only [codexQuota.classifyPair, codexQuota.classifyStep, codexQuota.FIVE_HOUR_SECONDS,
      codexQuota.WEEK_SECONDS, t1, t2, secondsIs_false h25, secondsIs_false h2w]
    split_ifs <;> simp_all [codexQuota.applyFallback]
  · intro w1 w2 t1 t2 h1m h25 h2w
    rcases h1m with h1 | h1 <;>
      [skip; skip] <;>
      first
      | (simp only [codexQuota.classifyPair, codexQuota.classifyStep,
          codexQuota.FIVE_HOUR_SECONDS, codexQuota.WEEK_SECONDS, t1, t2,
          secondsIs_iff.mpr h1, secondsIs_false (hne w1 h1),
          secondsIs_false h25, secondsIs_false h2w]
         split_ifs <;> simp_all [codexQuota.applyFallback])
      | (simp only [codexQuota.classifyPair, codexQuota.classifyStep,
          codexQuota.FIVE_HOUR_SECONDS, codexQuota.WEEK_SECONDS, t1, t2,
          secondsIs_iff.mpr h1, secondsIs_false (hne2 w1 h1),
          secondsIs_false h25, secondsIs_false h2w]
         split_ifs <;> simp_all [codexQuota.applyFallback])
  · intro w1 w2 t1 t2 h15 h1w h2m
    rcases h2m with h2 | h2 <;>
      first
      | (simp only [codexQuota.classifyPair, codexQuota.classifyStep,
          codexQuota.FIVE_HOUR_SECONDS, codexQuota.WEEK_SECONDS, t1, t2,
          secondsIs_iff.mpr h2, secondsIs_false (hne w2 h2),
          secondsIs_false h15, secondsIs_false h1w]
         split_ifs <;> simp_all [codexQuota.applyFallback])
      | (simp only [codexQuota.classifyPair, codexQuota.classifyStep,
          codexQuota.FIVE_HOUR_SECONDS, codexQuota.WEEK_SECONDS, t1, t2,
          secondsIs_iff.mpr h2, secondsIs_false (hne2 w2 h2),
          secondsIs_false h15, secondsIs_false h1w]
         split_ifs <;> simp_all [codexQuota.applyFallback])

theorem codex_window_classification_witness :
    (codexQuota.classifyPair
      (.obj [("limit_window_seconds", .num 18000)])
      (.obj [("limit_window_seconds", .num 999)])).fiveHour =
      some (.obj [("limit_window_seconds", .num 18000)]) :=
  codex_window_classification.1
    (.obj [("limit_window_seconds", .num 18000)])
    (.obj [("limit_window_seconds", .num 999)])
    (by with_unfolding_all rfl) (by with_unfolding_all rfl)

theorem tryUrls_nil {oracle : String → CallOutcome} {e : JsError} :
    antigravityQuota.tryUrls oracle [] (some e) = ([], .error e) := rfl

theorem tryUrls_cons_success {oracle : String → CallOutcome} {url : String}
    {rest : List String} {le : Option JsError}
    (h : antigravityQuota.isSuccess (oracle url) = true) :
    antigravityQuota.tryUrls oracle (url :: rest) le =
      ([url], .ok (antigravityQuota.parse (outcomeBody (oracle url)))) := by
  cases ho : oracle url with
  | transport e =>
    rw [ho] at h
    simp [antigravityQuota.isSuccess] at h
  | reply sc rb =>
    rw [ho] at h
    simp only [antigravityQuota.tryUrls, ho, outcomeBody]
    rw [if_pos h]

theorem tryUrls_cons_fail {oracle : String → CallOutcome} {url : String}
    {rest : List String} {le : Option JsError}
    (h : antigravityQuota.isSuccess (oracle url) = false) :
    antigravityQuota.tryUrls oracle (url :: rest) le =
      (url :: (antigravityQuota.tryUrls oracle rest
          (some (antigravityQuota.attemptError (oracle url)))).1,
       (antigravityQuota.tryUrls oracle rest
          (some (antigravityQuota.attemptError (oracle url)))).2) := by
  cases ho : oracle url with
  | transport e =>
    simp only [antigravityQuota.tryUrls, ho, antigravityQuota.attemptError]
  | reply sc rb =>
    rw [ho] at h
    simp only [antigravityQuota.tryUrls, ho]
    rw [if_neg (by simp [h])]

/-- C4 counterexample: against the oracle `c4CexOracle`, the first URL
answers HTTP 200 with the non-empty body `"0"`, so the claim demands that the
loop stop there; the source instead requires a *truthy parsed* body
(`result.body`), finds `"0"` parses to the falsy number 0, and proceeds to
the second URL. -/
theorem antigravity_fetch_claim_counterexample : ¬ ClaimC4 c4CexOracle := by
  intro h
  have h0 := h.1 0 (by norm_num) (fun j hj => absurd hj (Nat.not_lt_zero j))
    (by with_unfolding_all rfl)
  have hact : (antigravityQuota.fetchModel c4CexOracle).1.length = 2 := by
    with_unfolding_all rfl
  rw [h0] at hact
  simp [antigravityQuota.URLS] at hact

/-- C4 (amended): the loop tries the three URLs in order; the first attempt
whose status is in [200,300) *and whose body parses to a truthy value* is
parsed and returned with no further URL attempted (a non-empty body whose
JSON parse is falsy, such as `"0"`, does not stop the loop); if all three
attempts fail, the error recorded for the last attempt is thrown. -/
theorem antigravity_fetch_url_loop (oracle : String → CallOutcome) :
    (antigravityQuota.isSuccess (oracle (agUrlAt 0)) = true →
      antigravityQuota.fetchModel oracle =
        ([agUrlAt 0], .ok (antigravityQuota.parse (agParsedBodyAt oracle 0)))) ∧
    (antigravityQuota.isSuccess (oracle (agUrlAt 0)) = false →
      antigravityQuota.isSuccess (oracle (agUrlAt 1)) = true →
      antigravityQuota.fetchModel oracle =
        ([agUrlAt 0, agUrlAt 1],
         .ok (antigravityQuota.parse (agParsedBodyAt oracle 1)))) ∧
    (antigravityQuota.isSuccess (oracle (agUrlAt 0)) = false →
      antigravityQuota.isSuccess (oracle (agUrlAt 1)) = false →
      antigravityQuota.isSuccess (oracle (agUrlAt 2)) = true →
      antigravityQuota.fetchModel oracle =
        ([agUrlAt 0, agUrlAt 1, agUrlAt 2],
         .ok (antigravityQuota.parse (agParsedBodyAt oracle 2)))) ∧
    (antigravityQuota.isSuccess (oracle (agUrlAt 0)) = false →
      antigravityQuota.isSuccess (oracle (agUrlAt 1)) = false →
      antigravityQuota.isSuccess (oracle (agUrlAt 2)) = false →
      antigravityQuota.fetchModel oracle =
        ([agUrlAt 0, agUrlAt 1, agUrlAt 2],
         .error (antigravityQuota.attemptError (oracle (agUrlAt 2))))) := by
  have hu : antigravityQuota.URLS = [agUrlAt 0, agUrlAt 1, agUrlAt 2] := rfl
  refine ⟨?_, ?_, ?_, ?_⟩
  · intro h0
    simp only [antigravityQuota.fetchModel, hu]
    rw [tryUrls_cons_success h0]
    rfl
  · intro h0 h1
    simp only [antigravityQuota.fetchModel, hu]
    rw [tryUrls_cons_fail h0, tryUrls_cons_success h1]
    rfl
  · intro h0 h1 h2
    simp only [antigravityQuota.fetchModel, hu]
    rw [tryUrls_cons_fail h0, tryUrls_cons_fail h1, tryUrls_cons_success h2]
    rfl
  · intro h0 h1 h2
    simp only [antigravityQuota.fetchModel, hu]
    rw [tryUrls_cons_fail h0, tryUrls_cons_fail h1, tryUrls_cons_fail h2, tryUrls_nil]

theorem antigravity_fetch_url_loop_witness :
    antigravityQuota.fetchModel c4WitnessOracle =
      ([agUrlAt 0, agUrlAt 1, agUrlAt 2],
       .ok (antigravityQuota.parse (agParsedBodyAt c4WitnessOracle 2))) :=
  (antigravity_fetch_url_loop c4WitnessOracle).2.2.1
    (by with_unfolding_all rfl) (by with_unfolding_all rfl) (by with_unfolding_all rfl)

/-- C5: a file whose `authIndex`/`auth_index` handle is empty or absent is
rejected with "Missing authIndex" with no resolver (hence no network call)
invoked; otherwise the lower-cased type routes by exact match to exactly one
resolver, and any other type value is rejected with a message that extends
"Unsupported type". -/
theorem fetchQuotaByType_dispatch :
    (∀ (file : FileDesc) (resolvers : ResolverTag → Except JsError JVal),
      authIndexTruthy file = false →
      fetchQuotaByType file resolvers = (.error { message := "Missing authIndex" }, [])) ∧
    (∀ (file : FileDesc) (resolvers : ResolverTag → Except JsError JVal),
      authIndexTruthy file = true → dispatchedType file = "antigravity" →
      fetchQuotaByType file resolvers =
        ((resolvers .antigravity).map (fun d => { type := "antigravity", data := d }),
         [.antigravity])) ∧
    (∀ (file : FileDesc) (resolvers : ResolverTag → Except JsError JVal),
      authIndexTruthy file = true → dispatchedType file = "gemini-cli" →
      fetchQuotaByType file resolvers =
        ((resolvers .geminiCli).map (fun d => { type := "gemini-cli", data := d }),
         [.geminiCli])) ∧
    (∀ (file : FileDesc) (resolvers : ResolverTag → Except JsError JVal),
      authIndexTruthy file = true → dispatchedType file = "codex" →
      fetchQuotaByType file resolvers =
        ((resolvers .codex).map (fun d => { type := "codex", data := d }),
         [.codex])) ∧
    (∀ (file : FileDesc) (resolvers : ResolverTag → Except JsError JVal),
      authIndexTruthy file = true →
      dispatchedType file ≠ "antigravity" →
      dispatchedType file ≠ "gemini-cli" →
      dispatchedType file ≠ "codex" →
      fetchQuotaByType file resolvers =
        (.error { message := "Unsupported type: " ++ dispatchedType file }, []) ∧
      ∃ tail, "Unsupported type: " ++ dispatchedType file = "Unsupported type" ++ tail) := by
  refine ⟨?_, ?_, ?_, ?_, ?_⟩
  · intro file resolvers h
    simp [fetchQuotaByType, h]
  · intro file resolvers h ht
    simp [fetchQuotaByType, h, ht]
  · intro file resolvers h ht
    simp [fetchQuotaByType, h, ht]
  · intro file resolvers h ht
    simp [fetchQuotaByType, h, ht]
  · intro file resolvers h h1 h2 h3
    refine ⟨by simp [fetchQuotaByType, h, h1, h2, h3], ⟨": " ++ dispatchedType file, ?_⟩⟩
    rw [show ("Unsupported type: " : String) = "Unsupported type" ++ ": " from rfl]
    rw [String.append_assoc]

theorem fetchQuotaByType_dispatch_witness :
    fetchQuotaByType { type := some "codex" } (fun _ => .ok .null) =
      (.error { message := "Missing authIndex" }, []) ∧
    fetchQuotaByType { type := some "CoDex", auth_index := some "y" } (fun _ => .ok .null) =
      (.ok { type := "codex", data := .null }, [.codex]) ∧
    fetchQuotaByType { type := some "weird", authIndex := some "x" } (fun _ => .ok .null) =
      (.error { message := "Unsupported type: weird" }, []) := by
  refine ⟨fetchQuotaByType_dispatch.1 { type := some "codex" } (fun _ => .ok .null)
     (by with_unfolding_all rfl), ?_, ?_⟩
  · exact fetchQuotaByType_dispatch.2.2.2.1 { type := some "CoDex", auth_index := some "y" }
      (fun _ => .ok .null) (by with_unfolding_all rfl) (by with_unfolding_all rfl)
  · have e1 : dispatchedType { type := some "weird", authIndex := some "x" } = "weird" := by
      with_unfolding_all rfl
    have h := (fetchQuotaByType_dispatch.2.2.2.2 { type := some "weird", authIndex := some "x" }
      (fun _ => .ok .null) (by with_unfolding_all rfl)
      (by rw [e1]; decide) (by rw [e1]; decide) (by rw [e1]; decide)).1
    rw [e1] at h
    exact h

/-- C6 counterexample: an account string with two parenthesized groups; the
source regex (no global flag) yields the *first* group "alpha", while the
claim says the *last* group "beta". -/
theorem resolveGeminiCliProjectId_last_group_counterexample :
    resolveGeminiCliProjectId (some (.obj [("account", .str "Alice (alpha) (beta)")])) =
      some "alpha" ∧
    lastParenGroup "Alice (alpha) (beta)" = some "beta" ∧
    (some "alpha" : Option String) ≠ some "beta" :=
  ⟨by with_unfolding_all rfl, by with_unfolding_all rfl, by decide⟩

theorem firstParen_head (cs : List Char) :
    firstParenGroupAux cs = (parenGroupsAux cs).head? := by
  induction cs with
  | nil => rfl
  | cons c rest ih =>
    simp only [firstParenGroupAux, parenGroupsAux]
    split_ifs <;> simp [ih]

/-- C6 (amended): the project id is the *first* parenthesized group of the
account string (the leftmost regex match); a missing account string, a
non-string account, a failed download, or an account with no such group all
yield null, and the Gemini-CLI fetch then sends the body `\x7b\x7d`, omitting
the `project` field entirely. -/
theorem resolveGeminiCliProjectId_first_group :
    (resolveGeminiCliProjectId none = none) ∧
    (∀ parsed : JVal,
      (match parsed.get? "account" with
       | some (.str _) => False
       | _ => True) →
      resolveGeminiCliProjectId (some parsed) = none) ∧
    (∀ (fields : List (String × JVal)) (account : String),
      JVal.get? (.obj fields) "account" = some (.str account) →
      resolveGeminiCliProjectId (some (.obj fields)) = firstParenGroup account) ∧
    (∀ s : String, firstParenGroup s = (parenGroupsAux s.data).head?) ∧
    (geminiCliQuota.requestBody none = "\x7b\x7d") := by
  refine ⟨rfl, ?_, ?_, fun s => firstParen_head s.data, by with_unfolding_all rfl⟩
  · intro parsed hcond
    cases parsed with
    | obj fields =>
      simp only [resolveGeminiCliProjectId, jsTruthy, typeofObject]
      cases ha : JVal.get? (.obj fields) "account" with
      | none => simp [ha]
      | some v =>
        rw [ha] at hcond
        cases v <;> simp_all
    | null => rfl
    | bool b => cases b <;> rfl
    | num q => simp [resolveGeminiCliProjectId, typeofObject]
    | str s => simp [resolveGeminiCliProjectId, typeofObject]
    | arr es => simp [resolveGeminiCliProjectId, jsTruthy, typeofObject, JVal.get?]
  · intro fields account ha
    simp [resolveGeminiCliProjectId, jsTruthy, typeofObject, ha]

theorem resolveGeminiCliProjectId_first_group_witness :
    resolveGeminiCliProjectId (some (.obj [("account", .str "User Name (proj-123)")])) =
      firstParenGroup "User Name (proj-123)" :=
  resolveGeminiCliProjectId_first_group.2.2.1 [("account", .str "User Name (proj-123)")]
    "User Name (proj-123)" (by with_unfolding_all rfl)

theorem decode_c7GoodToken :
    decodeJwtPayload c7GoodToken =
      some (.obj [("chatgpt_account_id", .str "acct_123")]) := by
  have h1 : c7GoodToken.splitOn "." =
      ["header", "eyJjaGF0Z3B0X2FjY291bnRfaWQiOiJhY2N0XzEyMyJ9", "sig"] := by
    with_unfolding_all rfl
  have h2 : String.map (fun c => if c = '-' then '+' else if c = '_' then '/' else c)
      "eyJjaGF0Z3B0X2FjY291bnRfaWQiOiJhY2N0XzEyMyJ9" =
      "eyJjaGF0Z3B0X2FjY291bnRfaWQiOiJhY2N0XzEyMyJ9" := by
    with_unfolding_all rfl
  have h2len : ("eyJjaGF0Z3B0X2FjY291bnRfaWQiOiJhY2N0XzEyMyJ9" : String).length % 4 = 0 := by
    with_unfolding_all rfl
  have h3 : atob "eyJjaGF0Z3B0X2FjY291bnRfaWQiOiJhY2N0XzEyMyJ9" =
      some "\x7b\"chatgpt_account_id\":\"acct_123\"\x7d" := by
    with_unfolding_all rfl
  have h4 : jsonParse "\x7b\"chatgpt_account_id\":\"acct_123\"\x7d" =
      some (.obj [("chatgpt_account_id", .str "acct_123")]) := by
    with_unfolding_all rfl
  simp only [decodeJwtPayload, h1, List.length_cons, List.length_nil, List.get?]
  norm_num
  rw [h2]
  rw [h2len]
  norm_num [h3, h4]

theorem extract_of_decoded_claims (token : String) (v : JVal)
    (hdec : decodeJwtPayload token = some v)
    (hacc : jsCoalesce (v.get? "chatgpt_account_id") (v.get? "chatgptAccountId") =
      some (.str "acct_123")) :
    extractAccountIdFromIdToken (some (.str token)) = some "acct_123" := by
  have hobj : ∃ fields, v = JVal.obj fields := by
    cases v <;> simp [jsCoalesce, JVal.get?] at hacc
    exact ⟨_, rfl⟩
  obtain ⟨fields, rfl⟩ := hobj
  have ht : token ≠ "" := by
    intro h
    have hempty : decodeJwtPayload "" = none := by with_unfolding_all rfl
    rw [h, hempty] at hdec
    exact Option.noConfusion hdec
  have htrim : ("acct_123" : String).trim = "acct_123" := by with_unfolding_all rfl
  simp [extractAccountIdFromIdToken, jsTruthy, ht, typeofObject, hdec,
    accountIdFromClaims, hacc, htrim]

/-- C7: JWT payload decoding is total and never throws — for any token with
fewer than two dot-separated segments the result is null; for any token whose
second segment base64url-decodes and JSON-parses to claims carrying
`chatgpt_account_id = "acct_123"`, the extracted id is `"acct_123"`; and
concretely, a well-formed synthetic token yields `"acct_123"` while tokens
with no dot, an invalid base64 payload, or a non-JSON payload yield null. -/
theorem jwt_account_id_extraction :
    (∀ token : String, (token.splitOn ".").length < 2 →
      extractAccountIdFromIdToken (some (.str token)) = none) ∧
    (∀ (token : String) (v : JVal), decodeJwtPayload token = some v →
      jsCoalesce (v.get? "chatgpt_account_id") (v.get? "chatgptAccountId") =
        some (.str "acct_123") →
      extractAccountIdFromIdToken (some (.str token)) = some "acct_123") ∧
    (extractAccountIdFromIdToken (some (.str c7GoodToken)) = some "acct_123") ∧
    (extractAccountIdFromIdToken (some (.str "notajwt")) = none) ∧
    (extractAccountIdFromIdToken (some (.str "h.$$.s")) = none) ∧
    (extractAccountIdFromIdToken (some (.str "h.aGVsbG8.s")) = none) := by
  refine ⟨?_, extract_of_decoded_claims,
    extract_of_decoded_claims c7GoodToken _ decode_c7GoodToken (by with_unfolding_all rfl),
    by with_unfolding_all rfl, by with_unfolding_all rfl, by with_unfolding_all rfl⟩
  intro token h
  by_cases ht : token = ""
  · subst ht
    rfl
  · have hd : decodeJwtPayload token = none := by
      simp only [decodeJwtPayload]
      rw [if_pos h]
    simp [extractAccountIdFromIdToken, jsTruthy, ht, typeofObject, hd]

theorem jwt_account_id_extraction_witness :
    extractAccountIdFromIdToken (some (.str c7GoodToken)) = some "acct_123" :=
  jwt_account_id_extraction.2.1 c7GoodToken
    (.obj [("chatgpt_account_id", .str "acct_123")])
    decode_c7GoodToken (by with_unfolding_all rfl)

/-- C8 counterexample: a 500 response whose parsed body is
`\x7b"error":\x7b\x7d\x7d` matches the claimed shape with both optional parts
absent, so the claim ("with absent parts omitted") prescribes the bare
"HTTP 500"; the source instead falls through to the raw body text. -/
theorem createNon2xxError_claim_counterexample :
    (createNon2xxError c8CexResponse).message = "\x7b\"error\":\x7b\x7d\x7d" ∧
    claimC8Message c8CexResponse = "HTTP 500" ∧
    ("\x7b\"error\":\x7b\x7d\x7d" : String) ≠ "HTTP 500" :=
  ⟨by with_unfolding_all rfl, by with_unfolding_all rfl, by decide⟩

/-- C8 (amended): the returned error's `statusCode` property is the resolved
status code, and its message follows the claimed shape *except* that the
structured `HTTP <code> <errorCode>: <message>` format applies only when at
least one of `error.code` / `error.message` is a trimmed non-empty string; an
error object carrying neither falls back to the raw body text (then to the
bare `HTTP <code>`), like a shapeless body does. -/
theorem createNon2xxError_message_shape (result : ApiCallResponse) :
    (createNon2xxError result).statusCode = resolveStatusCode result ∧
    (createNon2xxError result).message = amendedC8Message result := by
  refine ⟨rfl, ?_⟩
  show formatNon2xxError result = amendedC8Message result
  by_cases hb : (jsTruthy result.body && typeofObject result.body) = true
  · cases he : result.body.get? "error" with
    | none =>
      simp [formatNon2xxError, amendedC8Message, claimErrorShape, hb, he]
    | some e =>
      by_cases het : (jsTruthy e && typeofObject e) = true
      · cases hc : normalizeText (e.get? "code") <;>
          cases hm : normalizeText (e.get? "message") <;>
          simp [formatNon2xxError, amendedC8Message, claimErrorShape, hb, he, het, hc, hm]
      · rw [Bool.not_eq_true] at het
        simp [formatNon2xxError, amendedC8Message, claimErrorShape, hb, he, het]
  · rw [Bool.not_eq_true] at hb
    simp [formatNon2xxError, amendedC8Message, claimErrorShape, hb]

theorem gemini_parse_eq (data : JVal) :
    geminiCliQuota.parse data =
      { buckets := (rawBucketsOf data).filterMap geminiCliQuota.bucketItem } := by
  simp only [geminiCliQuota.parse, rawBucketsOf]
  cases hv : (jsOrOpt (data.get? "buckets") (some (.arr []))).getD (.arr []) <;> simp

theorem gcModelId_some {bucket : JVal} {mid : String}
    (h : geminiCliQuota.gcModelId bucket = some mid) :
    ∃ raw, jsOrOpt (bucket.get? "modelId") (bucket.get? "model_id") = some (.str raw) ∧
      raw ≠ "" ∧ mid = stripVertex raw := by
  unfold geminiCliQuota.gcModelId at h
  split at h
  · rename_i s heq
    split_ifs at h with h1 h2
    · injection h with h
      refine ⟨s, heq, h1, ?_⟩
      rw [← h]
      simp [stripVertex, h2]
    · injection h with h
      refine ⟨s, heq, h1, ?_⟩
      rw [← h]
      simp [stripVertex, h2]
  · exact absurd h (by simp)

/-- C9 counterexample: the bucket `\x7bmodelId: "m", remainingFraction: 0\x7d`
carries a bare-number fraction 0, which the claimed resolution order keeps as
an exhausted bucket (percent 0); the source's `||` field fallback treats the
falsy number 0 as absent, finds no other evidence, and drops the bucket. -/
theorem gemini_bucket_fraction_counterexample :
    geminiCliQuota.parse c9ZeroData = { buckets := [] } ∧
    claimC9Parse c9ZeroData =
      { buckets := [{ label := "m", percent := some 0, remaining := some 0,
                      used := some 100, total := 100, resetTime := none,
                      hideInTable := false }] } ∧
    ({ buckets := [] } : GcResult) ≠
      { buckets := [{ label := "m", percent := some 0, remaining := some 0,
                      used := some 100, total := 100, resetTime := none,
                      hideInTable := false }] } := by
  refine ⟨by with_unfolding_all rfl, by with_unfolding_all rfl, ?_⟩
  intro h
  injection h with h
  exact List.noConfusion h

/-- C9 (amended): every output bucket's modelId is the input bucket's truthy
`modelId || model_id` string with a trailing `_vertex` removed; fields are
selected by JS truthiness, so a field holding the number 0 is treated as
absent — a bare-number fraction is honored only when non-zero, and a
`remainingAmount` decides exhaustion only when truthy and `≤ 0`; the
remaining order is as claimed: percentage string or number, then
`remainingAmount`, then `resetTime` as exhaustion evidence, and buckets with
no modelId or no determinable fraction are dropped without failing. -/
theorem gemini_bucket_normalization :
    (∀ data : JVal, ∀ it ∈ (geminiCliQuota.parse data).buckets,
      ∃ b ∈ rawBucketsOf data, ∃ raw : String,
        jsOrOpt (b.get? "modelId") (b.get? "model_id") = some (.str raw) ∧
        raw ≠ "" ∧ it.label = stripVertex raw) ∧
    (geminiCliQuota.parse c9VertexData).buckets.map (fun it => (it.label, it.percent)) =
      [("gemini-pro", some 50)] ∧
    (geminiCliQuota.parse (gcData (.obj [("modelId", .str "m"),
        ("remainingFraction", .num (2/5))]))).buckets.map (fun it => (it.label, it.percent)) =
      [("m", some 40)] ∧
    (geminiCliQuota.parse c9ZeroData).buckets = [] ∧
    (geminiCliQuota.parse (gcData (.obj [("modelId", .str "m"),
        ("remainingAmount", .num (-2))]))).buckets.map (fun it => (it.label, it.percent)) =
      [("m", some 0)] ∧
    (geminiCliQuota.parse (gcData (.obj [("modelId", .str "m"),
        ("remainingAmount", .num 3)]))).buckets = [] ∧
    (geminiCliQuota.parse (gcData (.obj [("modelId", .str "m"),
        ("remainingAmount", .num 0)]))).buckets = [] ∧
    (geminiCliQuota.parse (gcData (.obj [("modelId", .str "m"),
        ("resetTime", .str "2026-01-01T00:00:00Z")]))).buckets.map
      (fun it => (it.label, it.percent)) = [("m", some 0)] ∧
    (geminiCliQuota.parse (gcData (.obj [("modelId", .str "m")]))).buckets = [] := by
  refine ⟨?_, by with_unfolding_all rfl, by with_unfolding_all rfl,
    by with_unfolding_all rfl, by with_unfolding_all rfl, by with_unfolding_all rfl,
    by with_unfolding_all rfl, by with_unfolding_all rfl, by with_unfolding_all rfl⟩
  intro data it hmem
  rw [gemini_parse_eq] at hmem
  obtain ⟨b, hb, hitem⟩ := List.mem_filterMap.mp hmem
  simp only [geminiCliQuota.bucketItem] at hitem
  split at hitem
  · exact absurd hitem (by simp)
  · rename_i mid hmid
    split at hitem
    · exact absurd hitem (by simp)
    · injection hitem with hitem
      obtain ⟨raw, hraw, hne, hmids⟩ := gcModelId_some hmid
      refine ⟨b, hb, raw, hraw, hne, ?_⟩
      rw [← hitem]
      simpa using hmids

theorem gemini_bucket_normalization_witness :
    ∃ b ∈ rawBucketsOf c9VertexData, ∃ raw : String,
      jsOrOpt (b.get? "modelId") (b.get? "model_id") = some (.str raw) ∧
      raw ≠ "" ∧ ("gemini-pro" : String) = stripVertex raw :=
  gemini_bucket_normalization.1 c9VertexData
    { label := "gemini-pro", percent := some 50, remaining := some 50,
      used := some 50, total := 100, resetTime := none, hideInTable := false }
    (by rw [show (geminiCliQuota.parse c9VertexData).buckets =
        [{ label := "gemini-pro", percent := some 50, remaining := some 50,
           used := some 50, total := 100, resetTime := none, hideInTable := false }]
        from by with_unfolding_all rfl]
        exact List.mem_singleton_self _)

theorem createNon2xxError_message_shape_witness :
    (createNon2xxError c8CexResponse).statusCode = resolveStatusCode c8CexResponse ∧
    (createNon2xxError c8CexResponse).message = amendedC8Message c8CexResponse :=
  createNon2xxError_message_shape c8CexResponse
